import Mathlib

/-!
# Verification of the RTO (return-to-office) booking engine

Shallow embedding of the booking & capacity-allocation engine of the
repository (a React/TypeScript single-file application, `index.tsx`).

Calendar dates are values of `Ymd` (year, month, day), mirroring the
canonical `YYYY-MM-DD` strings the source stores in `Booking.date` and
`WaitlistEntry.date`: every date string in the system is produced by
`formatDateToYMD`, which zero-pads month and day, so the string
representation and the component triple are in bijection and string
equality on dates coincides with `Ymd` equality.

JS `Date` arithmetic (day-of-week, month lengths, week numbers) is
modelled by day numbers since the Unix epoch via the standard
days-from-civil / civil-from-days algorithms for the proleptic Gregorian
calendar, which is exactly the arithmetic an ECMAScript engine performs
for its internal time value (§21.4.1 of the ECMAScript specification).
Integer division `/` on `Int` below is Euclidean division, which agrees
with mathematical floor division for the positive constant divisors used
here.
-/

namespace RTO

/-- A calendar date: year, month (1..12), day (1..31), mirroring the
`YYYY-MM-DD` strings used throughout the source. -/
structure Ymd where
  y : Int
  m : Int
  d : Int
deriving DecidableEq, Repr

/-- Day number (days since 1970-01-01) of a civil date: the standard
days-from-civil algorithm, modelling the value of
`Date.UTC(y, m-1, d) / 86400000`. -/
def civilToDays (y m d : Int) : Int :=
  let y' := if m ≤ 2 then y - 1 else y
  let era := y' / 400
  let yoe := y' - era * 400
  let mp  := if 2 < m then m - 3 else m + 9
  let doy := (153 * mp + 2) / 5 + d - 1
  let doe := yoe * 365 + yoe / 4 - yoe / 100 + doy
  era * 146097 + doe - 719468

/-- Days within a 400-year era that precede year-of-era `k`
(an internal quantity of the civil-from-days algorithm). -/
def DD (k : Nat) : Nat := 365 * k + k / 4 - k / 100

/-- The year-of-era of day-of-era `a`, as computed by the
civil-from-days algorithm. -/
def bOf (a : Nat) : Nat := (a - a / 1460 + a / 36524 - a / 146096) / 365

/-- The shifted month index `mp` (0 = March .. 11 = February) of
day-of-year `doy`, as computed by the civil-from-days algorithm. -/
def mpOf (doy : Nat) : Nat := (5 * doy + 2) / 153

/-- Within-era part of the civil-from-days algorithm: maps a day-of-era
to (year-of-era, month, day).  All quantities are nonnegative, matching
the unsigned arithmetic of the reference algorithm. -/
def civilFromDoe (doe : Nat) : Nat × Nat × Nat :=
  let yoe := bOf doe
  let doy := doe - DD yoe
  let mp := mpOf doy
  let d := doy - (153 * mp + 2) / 5 + 1
  let m := if mp < 10 then mp + 3 else mp - 9
  (yoe, m, d)

/-- Civil date of a day number (inverse of `civilToDays`): the standard
civil-from-days algorithm, modelling JS
`Date#getUTCFullYear/getUTCMonth/getUTCDate` of a UTC-midnight date. -/
def daysToCivil (z : Int) : Ymd :=
  let z' := z + 719468
  let era := z' / 146097
  let doe := (z' - era * 146097).toNat
  let p := civilFromDoe doe
  let y : Int := (p.1 : Int) + era * 400
  ⟨if p.2.1 ≤ 2 then y + 1 else y, (p.2.1 : Int), (p.2.2 : Int)⟩

/-- Day number of a `Ymd`. -/
def Ymd.toDays (x : Ymd) : Int := civilToDays x.y x.m x.d

/-- Per-year-of-era facts of the civil-from-days year formula, checked
once for each of the 400 years of an era. -/
def yoeBoundaryOk (k : Nat) : Bool :=
  decide (bOf (DD k) = k ∧ bOf (DD (k + 1) - 1) = k ∧ DD (k + 1) ≤ 146096 ∧
    DD k + 365 ≤ DD (k + 1) ∧ DD (k + 1) ≤ DD k + 366)

set_option maxRecDepth 2000 in
set_option maxHeartbeats 1600000 in
lemma yoeBoundaryOk_all : ∀ k, k < 400 → yoeBoundaryOk k = true := by decide

lemma x_mono (a1 a2 : Nat) (h12 : a1 ≤ a2) (h2 : a2 ≤ 146096) :
    a1 - a1 / 1460 + a1 / 36524 - a1 / 146096 ≤ a2 - a2 / 1460 + a2 / 36524 - a2 / 146096 := by
  omega

lemma bOf_mono (a1 a2 : Nat) (h12 : a1 ≤ a2) (h2 : a2 ≤ 146096) : bOf a1 ≤ bOf a2 :=
  Nat.div_le_div_right (x_mono a1 a2 h12 h2)

lemma bOf_top : bOf 146096 = 399 := by decide

/-- Correctness of the year-of-era formula: `bOf a` is the year-of-era
containing day-of-era `a`. -/
lemma yoe_main (a : Nat) (h : a ≤ 146096) :
    bOf a ≤ 399 ∧ DD (bOf a) ≤ a ∧ a - DD (bOf a) ≤ 365 := by
  have hDD0 : DD 0 ≤ a := by unfold DD; omega
  have hKle : DD (Nat.findGreatest (fun k => DD k ≤ a) 399) ≤ a :=
    @Nat.findGreatest_spec 0 (fun k => DD k ≤ a) (fun k => inferInstance) 399
      (Nat.zero_le 399) hDD0
  set K := Nat.findGreatest (fun k => DD k ≤ a) 399 with hK
  have hK399 : K ≤ 399 := Nat.findGreatest_le 399
  have hbd := yoeBoundaryOk_all K (by omega)
  simp only [yoeBoundaryOk, decide_eq_true_eq] at hbd
  obtain ⟨hbd1, hbd2, hbd3, hbd4, hbd5⟩ := hbd
  have hb1 : K ≤ bOf a := hbd1 ▸ bOf_mono (DD K) a hKle h
  have hupper : a < DD (K + 1) ∨ K = 399 := by
    by_cases hc : K = 399
    · right; exact hc
    · left
      by_contra hcon
      push_neg at hcon
      exact Nat.findGreatest_is_greatest (Nat.lt_succ_self K) (by omega) hcon
  have hb2 : bOf a ≤ K := by
    rcases hupper with h1 | h1
    · have hm := bOf_mono a (DD (K + 1) - 1) (by omega) (by omega)
      omega
    · have hm := bOf_mono a 146096 h (by omega)
      rw [bOf_top] at hm
      omega
  have hbk : bOf a = K := le_antisymm hb2 hb1
  rw [hbk]
  refine ⟨by omega, hKle, ?_⟩
  rcases hupper with h1 | h1
  · omega
  · rw [h1]
    have hDD399 : DD 399 = 145731 := by decide
    rw [hDD399]
    omega

/-- Correctness of the month-extraction formula of civil-from-days. -/
lemma mp_spec (doy : Nat) (h : doy ≤ 365) :
    mpOf doy ≤ 11 ∧ (153 * mpOf doy + 2) / 5 ≤ doy ∧
    doy - (153 * mpOf doy + 2) / 5 ≤ 30 ∧ (10 ≤ mpOf doy ↔ 306 ≤ doy) := by
  unfold mpOf
  omega

/-- Within-era correctness: `civilFromDoe` produces a valid month/day and
the month/day/year-of-era triple reconstructs the day-of-era. -/
lemma civilFromDoe_spec (doe : Nat) (h : doe ≤ 146096) :
    let p := civilFromDoe doe
    p.1 ≤ 399 ∧ 1 ≤ p.2.1 ∧ p.2.1 ≤ 12 ∧ 1 ≤ p.2.2 ∧ p.2.2 ≤ 31 ∧
    (p.2.1 ≤ 2 ↔ 306 ≤ doe - DD p.1) ∧
    DD p.1 ≤ doe ∧ doe - DD p.1 ≤ 365 ∧
    (153 * (if 2 < p.2.1 then p.2.1 - 3 else p.2.1 + 9) + 2) / 5 + p.2.2 =
      doe - DD p.1 + 1 := by
  obtain ⟨hy1, hy2, hy3⟩ := yoe_main doe h
  obtain ⟨hm1, hm2, hm3, hm4⟩ := mp_spec (doe - DD (bOf doe)) hy3
  simp only [civilFromDoe]
  refine ⟨hy1, ?_, ?_, by omega, by omega, ?_, hy2, hy3, ?_⟩
  · split <;> omega
  · split <;> omega
  · constructor
    · intro hle
      split at hle <;> omega
    · intro h306
      have : 10 ≤ mpOf (doe - DD (bOf doe)) := hm4.mpr h306
      split <;> omega
  · have hcase : (if 2 < (if mpOf (doe - DD (bOf doe)) < 10 then mpOf (doe - DD (bOf doe)) + 3
        else mpOf (doe - DD (bOf doe)) - 9) then
          (if mpOf (doe - DD (bOf doe)) < 10 then mpOf (doe - DD (bOf doe)) + 3
            else mpOf (doe - DD (bOf doe)) - 9) - 3
        else (if mpOf (doe - DD (bOf doe)) < 10 then mpOf (doe - DD (bOf doe)) + 3
            else mpOf (doe - DD (bOf doe)) - 9) + 9) = mpOf (doe - DD (bOf doe)) := by
      split_ifs <;> omega
    rw [hcase]
    omega

/-- `daysToCivil` produces a valid calendar date and is a right inverse
of `civilToDays`. -/
theorem daysToCivil_toDays (z : Int) :
    (daysToCivil z).toDays = z ∧
    1 ≤ (daysToCivil z).m ∧ (daysToCivil z).m ≤ 12 ∧
    1 ≤ (daysToCivil z).d ∧ (daysToCivil z).d ≤ 31 := by
  have hdoe0 : 0 ≤ z + 719468 - (z + 719468) / 146097 * 146097 := by omega
  have hdoe1 : z + 719468 - (z + 719468) / 146097 * 146097 ≤ 146096 := by omega
  set era := (z + 719468) / 146097 with hera
  set doe := (z + 719468 - era * 146097).toNat with hdoe
  have hdoeN : doe ≤ 146096 := by omega
  have hcast : (doe : Int) = z + 719468 - era * 146097 := by omega
  obtain ⟨hy1, hm1, hm2, hd1, hd2, _, hDDle, hdoy365, hrec⟩ := civilFromDoe_spec doe hdoeN
  set p := civilFromDoe doe with hp
  simp only [daysToCivil, Ymd.toDays, civilToDays]
  rw [← hera, ← hdoe, ← hp]
  have hyoeDiv4 : ((p.1 : Int)) / 4 = ((p.1 / 4 : Nat) : Int) := (Int.natCast_div _ _).symm
  have hyoeDiv100 : ((p.1 : Int)) / 100 = ((p.1 / 100 : Nat) : Int) := (Int.natCast_div _ _).symm
  constructor
  · -- the reconstructed day number equals z
    have hiff : ((p.2.1 : Int) ≤ 2 ↔ p.2.1 ≤ 2) := by omega
    have hiff2 : (2 < (p.2.1 : Int) ↔ 2 < p.2.1) := by omega
    by_cases hm : p.2.1 ≤ 2
    · rw [if_pos hm, if_pos (hiff.mpr hm), if_neg (by omega : ¬ (2 : Int) < (p.2.1 : Int))]
      have hmp : ¬ 2 < p.2.1 := by omega
      rw [if_neg hmp] at hrec
      have hyd : (p.1 : Int) + era * 400 + 1 - 1 = (p.1 : Int) + era * 400 := by ring
      rw [hyd]
      have hera2 : ((p.1 : Int) + era * 400) / 400 = era := by omega
      rw [hera2]
      have hyoe2 : (p.1 : Int) + era * 400 - era * 400 = (p.1 : Int) := by ring
      rw [hyoe2, hyoeDiv4, hyoeDiv100]
      have hq : (153 * ((p.2.1 : Int) + 9) + 2) / 5 =
          (((153 * (p.2.1 + 9) + 2) / 5 : Nat) : Int) := by
        have : (153 * ((p.2.1 : Int) + 9) + 2) = (((153 * (p.2.1 + 9) + 2) : Nat) : Int) := by
          push_cast; ring
        rw [this]
        exact (Int.natCast_div _ _).symm
      rw [hq]
      have hDDnat : DD p.1 = 365 * p.1 + p.1 / 4 - p.1 / 100 := rfl
      omega
    · rw [if_neg hm, if_neg (fun hc => hm (hiff.mp hc)),
        if_pos (hiff2.mpr (by omega : 2 < p.2.1))]
      have hmp : 2 < p.2.1 := by omega
      rw [if_pos hmp] at hrec
      have hera2 : ((p.1 : Int) + era * 400) / 400 = era := by omega
      rw [hera2]
      have hyoe2 : (p.1 : Int) + era * 400 - era * 400 = (p.1 : Int) := by ring
      rw [hyoe2, hyoeDiv4, hyoeDiv100]
      have hq : (153 * ((p.2.1 : Int) - 3) + 2) / 5 =
          (((153 * (p.2.1 - 3) + 2) / 5 : Nat) : Int) := by
        have : (153 * ((p.2.1 : Int) - 3) + 2) = (((153 * (p.2.1 - 3) + 2) : Nat) : Int) := by
          push_cast [Nat.cast_sub (by omega : 3 ≤ p.2.1)]
          ring
        rw [this]
        exact (Int.natCast_div _ _).symm
      rw [hq]
      have hDDnat : DD p.1 = 365 * p.1 + p.1 / 4 - p.1 / 100 := rfl
      omega
  · exact ⟨by omega, by omega, by omega, by omega⟩

/-- January 1 of the year of day `z` is on or before `z`. -/
theorem jan1_le (z : Int) : civilToDays (daysToCivil z).y 1 1 ≤ z := by
  have hdoe0 : 0 ≤ z + 719468 - (z + 719468) / 146097 * 146097 := by omega
  have hdoe1 : z + 719468 - (z + 719468) / 146097 * 146097 ≤ 146096 := by omega
  set era := (z + 719468) / 146097 with hera
  set doe := (z + 719468 - era * 146097).toNat with hdoe
  have hdoeN : doe ≤ 146096 := by omega
  have hcast : (doe : Int) = z + 719468 - era * 146097 := by omega
  obtain ⟨hy1, hm1, hm2, hd1, hd2, hm306, hDDle, hdoy365, hrec⟩ := civilFromDoe_spec doe hdoeN
  set p := civilFromDoe doe with hp
  have hDDnat : DD p.1 = 365 * p.1 + p.1 / 4 - p.1 / 100 := rfl
  simp only [daysToCivil, ← hera, ← hdoe, ← hp]
  simp only [civilToDays]
  rw [if_pos (by omega : (1 : Int) ≤ 2), if_neg (by omega : ¬ (2 : Int) < 1)]
  have h306 : (153 * ((1 : Int) + 9) + 2) / 5 = 306 := by decide
  rw [h306]
  by_cases hm : p.2.1 ≤ 2
  · -- January/February: the year is `yoe + era*400 + 1`; its January 1 has the
    -- same era and year-of-era as `z`.
    rw [if_pos hm]
    have hyd : (p.1 : Int) + era * 400 + 1 - 1 = (p.1 : Int) + era * 400 := by ring
    rw [hyd]
    have hera2 : ((p.1 : Int) + era * 400) / 400 = era := by omega
    rw [hera2]
    have hyoe2 : (p.1 : Int) + era * 400 - era * 400 = (p.1 : Int) := by ring
    have hc4 : ((p.1 : Int)) / 4 = ((p.1 / 4 : Nat) : Int) := (Int.natCast_div _ _).symm
    have hc100 : ((p.1 : Int)) / 100 = ((p.1 / 100 : Nat) : Int) := (Int.natCast_div _ _).symm
    rw [hyoe2, hc4, hc100]
    have hdoy306 : 306 ≤ doe - DD p.1 := hm306.mp hm
    omega
  · -- March..December: the year is `yoe + era*400`; its January 1 lies in the
    -- previous shifted year.
    rw [if_neg hm]
    by_cases hz : 1 ≤ p.1
    · have hera2 : ((p.1 : Int) + era * 400 - 1) / 400 = era := by omega
      rw [hera2]
      have hyoe2 : (p.1 : Int) + era * 400 - 1 - era * 400 = ((p.1 - 1 : Nat) : Int) := by
        push_cast [Nat.cast_sub hz]; ring
      have hc4 : (((p.1 - 1 : Nat) : Int)) / 4 = (((p.1 - 1) / 4 : Nat) : Int) :=
        (Int.natCast_div _ _).symm
      have hc100 : (((p.1 - 1 : Nat) : Int)) / 100 = (((p.1 - 1) / 100 : Nat) : Int) :=
        (Int.natCast_div _ _).symm
      rw [hyoe2, hc4, hc100]
      have hbd := yoeBoundaryOk_all (p.1 - 1) (by omega)
      simp only [yoeBoundaryOk, decide_eq_true_eq] at hbd
      have hstep : DD (p.1 - 1) + 365 ≤ DD (p.1 - 1 + 1) := hbd.2.2.2.1
      have hDDnat' : DD (p.1 - 1) = 365 * (p.1 - 1) + (p.1 - 1) / 4 - (p.1 - 1) / 100 := rfl
      omega
    · -- year-of-era 0: January 1 lies in the previous era, as year-of-era 399.
      have hz0 : p.1 = 0 := by omega
      have hera2 : ((p.1 : Int) + era * 400 - 1) / 400 = era - 1 := by
        rw [hz0]; push_cast; omega
      rw [hera2]
      have hyoe2 : (p.1 : Int) + era * 400 - 1 - (era - 1) * 400 = 399 := by
        rw [hz0]; push_cast; ring
      rw [hyoe2]
      have h399a : (399 : Int) / 4 = 99 := by decide
      have h399b : (399 : Int) / 100 = 3 := by decide
      rw [h399a, h399b]
      rw [hz0] at hDDle hdoy365
      have hDD0 : DD 0 = 0 := rfl
      omega

/-! ## Week numbers -/

/-- JS `Date#getUTCDay` of day number `n` (0 = Sunday .. 6 = Saturday). -/
def jsGetUTCDay (n : Int) : Int := (n + 4) % 7

/-- The `getWeek` function of the source, on day numbers:
```
const getWeek = (date) => {
  const d = new Date(Date.UTC(date.getFullYear(), date.getMonth(), date.getDate()));
  const dayNum = d.getUTCDay() || 7;
  d.setUTCDate(d.getUTCDate() + 4 - dayNum);
  const yearStart = new Date(Date.UTC(d.getUTCFullYear(), 0, 1));
  return Math.ceil((((d.getTime() - yearStart.getTime()) / 86400000) + 1) / 7);
};
```
`Math.ceil(x / 7)` of an integer `x` is `(x + 6) / 7` in floor division. -/
def getWeekDay (n : Int) : Int :=
  let dayNum := if jsGetUTCDay n = 0 then 7 else jsGetUTCDay n
  let t := n + 4 - dayNum
  let yearStart := civilToDays (daysToCivil t).y 1 1
  (t - yearStart + 1 + 6) / 7

/-- The source's `getWeek` on a calendar date. -/
def getWeek (x : Ymd) : Int := getWeekDay x.toDays

/-- ISO-8601 day-of-week ordinal (Monday = 1 .. Sunday = 7). -/
def isoDayNum (n : Int) : Int := if (n + 4) % 7 = 0 then 7 else (n + 4) % 7

/-- The Thursday of the ISO (Monday-based) week containing day `n`. -/
def isoThursday (n : Int) : Int := n + 4 - isoDayNum n

/-- Day number of January 1 of year `y`. -/
def jan1 (y : Int) : Int := civilToDays y 1 1

/-- The first Thursday of year `y`: advance January 1 to the next
Thursday (day-of-week 4). -/
def firstThursday (y : Int) : Int := jan1 y + (4 - (jan1 y + 4) % 7 + 7) % 7

/-- ISO-8601 week number, written from the standard's definition: week 1
is the week containing the year's first Thursday, weeks run Monday to
Sunday, and a date's week-numbering year is the year containing the
Thursday of its week. -/
def isoWeekSpec (x : Ymd) : Int :=
  let t := isoThursday x.toDays
  (t - firstThursday (daysToCivil t).y) / 7 + 1

/-- `firstThursday y` really is the first Thursday on or after January 1:
it falls on a Thursday and within the first seven days of the year. -/
theorem firstThursday_spec (y : Int) :
    jsGetUTCDay (firstThursday y) = 4 ∧
    jan1 y ≤ firstThursday y ∧ firstThursday y ≤ jan1 y + 6 := by
  unfold firstThursday jsGetUTCDay
  omega

lemma getWeekDay_eq_iso (n : Int) :
    getWeekDay n = (isoThursday n - firstThursday (daysToCivil (isoThursday n)).y) / 7 + 1 := by
  simp only [getWeekDay, isoThursday, isoDayNum, jsGetUTCDay, jan1, firstThursday]
  have ht : (n + 4 - (if (n + 4) % 7 = 0 then 7 else (n + 4) % 7)) % 7 = 0 := by
    split <;> omega
  set t := n + 4 - (if (n + 4) % 7 = 0 then 7 else (n + 4) % 7) with hdeft
  have hys := jan1_le t
  set ys := civilToDays (daysToCivil t).y 1 1 with hdefys
  omega

/-! ## Data model

The interfaces of the source (`Location`, `User`, `Booking`,
`WaitlistEntry`, `DayStatus`) and the module-level mutable collections
(`mockLocations`, `mockUsers`, `mockBookings`, `mockWaitlist`,
`nextBookingId`, `nextWaitlistId`, `nextUserId`), packaged as an
explicit state record.  `Option String` on `User` fields models JS
`undefined`: the CSV import stores `values[index]`, which is `undefined`
when a row is shorter than the header list. -/

inductive Role where
  | associate
  | admin
deriving DecidableEq, Repr

inductive BookingStatus where
  | confirmed
  | cancelled
deriving DecidableEq, Repr

structure Location where
  id : Int
  name : String
  capacity : Int
deriving DecidableEq, Repr

structure User where
  id : Int
  employeeId : Option String
  name : Option String
  email : Option String
  role : Role
  locationId : Int
  teamId : Option Int
deriving DecidableEq, Repr

structure Booking where
  id : Int
  userId : Int
  date : Ymd
  status : BookingStatus
deriving DecidableEq, Repr

structure WaitlistEntry where
  id : Int
  userId : Int
  date : Ymd
  timestamp : Int
deriving DecidableEq, Repr

structure DayStatus where
  bookings : Nat
  waitlist : Nat
  isFull : Bool
  isWaitlistFull : Bool
deriving DecidableEq, Repr

/-- The module-level mutable stores of the source. -/
structure ApiState where
  locations : List Location
  users : List User
  bookings : List Booking
  waitlist : List WaitlistEntry
  nextBookingId : Int
  nextWaitlistId : Int
  nextUserId : Int
deriving DecidableEq, Repr

/-- The `indianPublicHolidays` table (dates with names); unknown years
have no entries, matching `indianPublicHolidays[year] || []`. -/
def indianPublicHolidays (year : Int) : List (Ymd × String) :=
  if year = 2024 then
    [(⟨2024, 1, 26⟩, "Republic Day"), (⟨2024, 3, 25⟩, "Holi"),
     (⟨2024, 3, 29⟩, "Good Friday"), (⟨2024, 4, 11⟩, "Eid-ul-Fitr"),
     (⟨2024, 8, 15⟩, "Independence Day"), (⟨2024, 10, 2⟩, "Gandhi Jayanti"),
     (⟨2024, 10, 31⟩, "Diwali"), (⟨2024, 12, 25⟩, "Christmas")]
  else if year = 2025 then
    [(⟨2025, 1, 26⟩, "Republic Day"), (⟨2025, 3, 14⟩, "Holi"),
     (⟨2025, 4, 18⟩, "Good Friday"), (⟨2025, 3, 31⟩, "Eid-ul-Fitr"),
     (⟨2025, 8, 15⟩, "Independence Day"), (⟨2025, 10, 2⟩, "Gandhi Jayanti"),
     (⟨2025, 10, 20⟩, "Diwali"), (⟨2025, 12, 25⟩, "Christmas")]
  else []

/-- Key membership of `getIndianPublicHolidaysForYear(year)` (a
`Map<string, string>` queried with `.has(dateStr)`). -/
def isHoliday (year : Int) (d : Ymd) : Bool :=
  ((indianPublicHolidays year).map Prod.fst).contains d

/-! ## API operations -/

/-- `new Date(year, month + 1, 0).getDate()`: the number of days of the
0-based `month0` of `year` (day 0 of the following month). -/
def daysInMonth (year month0 : Int) : Int :=
  (if month0 + 1 = 12 then civilToDays (year + 1) 1 1
   else civilToDays year (month0 + 2) 1) - civilToDays year (month0 + 1) 1

/-- `apiService.getMonthlyBookingStatus(locationId, year, month)`.
Month is 0-based as in the source; the record keys are the formatted
dates `⟨year, month+1, day⟩`.  Unknown locations resolve `{}`. -/
def getMonthlyBookingStatus (st : ApiState) (locationId year month0 : Int) :
    List (Ymd × DayStatus) :=
  match st.locations.find? (fun l => decide (l.id = locationId)) with
  | none => []
  | some location =>
    let usersInLocation := (st.users.filter (fun u => decide (u.locationId = locationId))).map User.id
    (List.range (daysInMonth year month0).toNat).map (fun k =>
      let dateStr : Ymd := ⟨year, month0 + 1, ((k + 1 : Nat) : Int)⟩
      let bookingsOnDate := (st.bookings.filter (fun b =>
        decide (b.date = dateStr ∧ b.userId ∈ usersInLocation ∧
          b.status = BookingStatus.confirmed))).length
      let waitlistOnDate := (st.waitlist.filter (fun w =>
        decide (w.date = dateStr ∧ w.userId ∈ usersInLocation))).length
      (dateStr,
        { bookings := bookingsOnDate
          waitlist := waitlistOnDate
          isFull := decide (location.capacity ≤ (bookingsOnDate : Int))
          isWaitlistFull := decide (20 ≤ waitlistOnDate) }))

/-- `apiService.getBookingsForDate(date, locationId)`.  The source sorts
the filtered waitlist entries by `timestamp` and then collects their
user ids into a `Set`; a JS `Set` is queried only through `.has`, so the
sort does not affect the result and the embedding keeps the unsorted
list of ids (same members).  Both result lists are produced by filtering
`mockUsers`, hence are in user-table order. -/
def getBookingsForDate (st : ApiState) (date : Ymd) (locationId : Int) :
    List User × List User :=
  let usersInLocation := (st.users.filter (fun u => decide (u.locationId = locationId))).map User.id
  let bookedUserIds := (st.bookings.filter (fun b =>
    decide (b.date = date ∧ b.userId ∈ usersInLocation ∧
      b.status = BookingStatus.confirmed))).map Booking.userId
  let waitlistedUserIds := (st.waitlist.filter (fun w =>
    decide (w.date = date ∧ w.userId ∈ usersInLocation))).map WaitlistEntry.userId
  let bookedUsers := st.users.filter (fun u => decide (u.id ∈ bookedUserIds))
  let waitlistedUsers := st.users.filter (fun u => decide (u.id ∈ waitlistedUserIds))
  (bookedUsers, waitlistedUsers)

/-- Result of `apiService.submitBookings`. -/
structure SubmitResult where
  success : Bool
  message : String
deriving DecidableEq, Repr

/-- `apiService.submitBookings(userId, dates)`: pushes one confirmed
booking per requested date (with consecutive ids) and always resolves
`{success: true}`.  No capacity check is performed. -/
def submitBookings (st : ApiState) (userId : Int) (dates : List Ymd) :
    SubmitResult × ApiState :=
  let newBookings := dates.enum.map (fun p =>
    { id := st.nextBookingId + (p.1 : Int), userId := userId, date := p.2,
      status := BookingStatus.confirmed : Booking })
  ({ success := true,
     message := "Successfully booked " ++ toString dates.length ++ " days." },
   { st with bookings := st.bookings ++ newBookings,
             nextBookingId := st.nextBookingId + dates.length })

/-- `apiService.confirmWaitlist(userId, date)`: `findIndex` + `splice`
removes the first matching waitlist entry and pushes one confirmed
booking; rejects (`Except.error`) without touching the state when no
entry matches. -/
def confirmWaitlist (st : ApiState) (userId : Int) (date : Ymd) :
    Except String Unit × ApiState :=
  match st.waitlist.findIdx? (fun w => decide (w.userId = userId ∧ w.date = date)) with
  | some i =>
    (Except.ok (),
     { st with
       waitlist := st.waitlist.eraseIdx i,
       bookings := st.bookings ++
         [{ id := st.nextBookingId, userId := userId, date := date,
            status := BookingStatus.confirmed }],
       nextBookingId := st.nextBookingId + 1 })
  | none => (Except.error "User not found on waitlist.", st)

/-- The representative-day ("demo day") selection of
`apiService.getDashboardStats`: the first of days 1..7 of the next
calendar month that is neither a Saturday (day 6) nor a Sunday (day 0)
nor a listed public holiday of that year; day 3 of that month as the
fallback. -/
def demoDayOk (year month1 : Int) (k : Nat) : Bool :=
  decide (¬ jsGetUTCDay (Ymd.toDays ⟨year, month1, ((k + 1 : Nat) : Int)⟩) = 0 ∧
    ¬ jsGetUTCDay (Ymd.toDays ⟨year, month1, ((k + 1 : Nat) : Int)⟩) = 6 ∧
    ¬ isHoliday year ⟨year, month1, ((k + 1 : Nat) : Int)⟩ = true)

def getDashboardDemoDay (today : Ymd) : Ymd :=
  let year := if today.m = 12 then today.y + 1 else today.y
  let month1 := if today.m = 12 then 1 else today.m + 1
  match (List.range 7).find? (demoDayOk year month1) with
  | some k => ⟨year, month1, ((k + 1 : Nat) : Int)⟩
  | none => ⟨year, month1, 3⟩

/-! ## The weekly-minimum validation of `AssociatePortal.handleSubmit` -/

/-- Ascending insertion into a sorted list of week numbers. -/
def insertAsc (x : Int) : List Int → List Int
  | [] => [x]
  | y :: ys => if x ≤ y then x :: y :: ys else y :: insertAsc x ys

/-- Ascending sort of a list of week numbers.  A JS `for…in` loop over
an object keyed by week numbers visits the (array-index-like) keys in
ascending numeric order, so the validation scans weeks in this order. -/
def sortAsc (l : List Int) : List Int := l.foldr insertAsc []

/-- The dates of the batch falling in ISO week `w`
(`datesByWeek[w]`, in selection order). -/
def groupOf (dates : List Ymd) (w : Int) : List Ymd :=
  dates.filter (fun d => decide (getWeek d = w))

/-- `firstDayOfWeek`: the Sunday on or before `d`
(`setDate(getDate() - getDay())`), as a day number. -/
def sundayStartDays (d : Ymd) : Int := d.toDays - jsGetUTCDay d.toDays

/-- Whether some day of the Sunday-anchored week starting at day number
`ws` is completely exhausted in the fetched `monthlyStatus` record:
`status && status.isFull && status.isWaitlistFull`. -/
def anyDayCompletelyFull (status : Ymd → Option DayStatus) (ws : Int) : Bool :=
  (List.range 7).any (fun i =>
    match status (daysToCivil (ws + (i : Int))) with
    | some s => s.isFull && s.isWaitlistFull
    | none => false)

/-- The per-week test of `handleSubmit`: the week group is non-empty,
its Sunday-anchored week lies (by 0-based month number) in the month
being viewed, no day of it is completely full, and fewer than 3 days of
it are selected.  `cm1` is the viewed month as a 1-based number; the
source compares 0-based `getMonth()` values, an identical relation. -/
def isViolatingWeek (status : Ymd → Option DayStatus) (cm1 : Int)
    (dates : List Ymd) (w : Int) : Bool :=
  match (groupOf dates w).head? with
  | none => false
  | some d0 =>
    let ws := sundayStartDays d0
    if (daysToCivil ws).m = cm1 ∧ (daysToCivil (ws + 6)).m = cm1 then
      !(anyDayCompletelyFull status ws) && decide ((groupOf dates w).length < 3)
    else false

/-- The `firstDayOfWeek` named in the error message for week `w`. -/
def weekStartOf (dates : List Ymd) (w : Int) : Ymd :=
  match (groupOf dates w).head? with
  | some d0 => daysToCivil (sundayStartDays d0)
  | none => ⟨0, 0, 0⟩

/-- The week-validation loop of `handleSubmit`: scan the distinct week
numbers in ascending order and report the start of the first violating
week, if any. -/
def validateWeekly (status : Ymd → Option DayStatus) (cm1 : Int)
    (dates : List Ymd) : Option Ymd :=
  ((sortAsc ((dates.map getWeek).dedup)).find? (isViolatingWeek status cm1 dates)).map
    (weekStartOf dates)

/-- Outcome of `AssociatePortal.handleSubmit`. -/
inductive SubmitOutcome where
  | noDates
  | weeklyError (weekStart : Ymd)
  | booked (message : String)
deriving DecidableEq, Repr

/-- `AssociatePortal.handleSubmit`: reject an empty selection, then run
the weekly validation against the fetched `monthlyStatus` (`status`) and
the viewed month (`cm1`, 1-based); on a violation set the error naming
the offending week's start and submit nothing, otherwise submit every
selected date. -/
def handleSubmit (st : ApiState) (uid : Int) (status : Ymd → Option DayStatus)
    (cm1 : Int) (dates : List Ymd) : SubmitOutcome × ApiState :=
  if dates.isEmpty then (.noDates, st)
  else
    match validateWeekly status cm1 dates with
    | some ws => (.weeklyError ws, st)
    | none =>
      let r := submitBookings st uid dates
      (.booked r.1.message, r.2)

/-! ## The compliance calculation of
`AdminToolsView.handleGenerateComplianceReport` -/

/-- One entry of the non-compliant list. -/
structure NCRecord where
  name : Option String
  employeeId : Option String
  bookingCount : Nat
deriving DecidableEq, Repr

/-- `userBookingCounts.get(uid) || 0` of
`handleGenerateComplianceReport`: the map is incremented once per
confirmed booking of the target month (`year`, 0-based `month0`), so
the looked-up value is the number of such bookings with this `userId`,
embedded as `List.count` over the user ids of the filtered bookings.
(`new Date(b.date+'T12:00:00')` on a canonical date string has
`getFullYear() = y` and `getMonth() = m - 1`.) -/
def monthlyConfirmedCount (bookings : List Booking) (year month0 : Int) (uid : Int) : Nat :=
  ((bookings.filter (fun b =>
    decide (b.status = BookingStatus.confirmed ∧ b.date.y = year ∧
      b.date.m - 1 = month0))).map Booking.userId).count uid

/-- The pure core of `handleGenerateComplianceReport` for a target
month (`year`, 0-based `month0`): count each associate's confirmed
bookings dated in that month and keep those with fewer than 10. -/
def nonCompliantUsers (users : List User) (bookings : List Booking)
    (year month0 : Int) : List NCRecord :=
  ((users.filter (fun u => decide (u.role = Role.associate))).filter
    (fun u => decide (monthlyConfirmedCount bookings year month0 u.id < 10))).map
    (fun u => { name := u.name, employeeId := u.employeeId,
                bookingCount := monthlyConfirmedCount bookings year month0 u.id })

/-! ## `apiService.importUsersFromCSV` -/

/-- JS `String.prototype.split` with a single-character separator, on
the character list; `"".split(c)` is `[""]`.  (Lean's own `String`
functions use byte-position recursion that the kernel cannot evaluate,
so the embedding models the JS string methods on character lists.) -/
def jsSplitChars (sep : Char) : List Char → List (List Char)
  | [] => [[]]
  | c :: cs =>
    let r := jsSplitChars sep cs
    if c = sep then [] :: r
    else
      match r with
      | [] => [[c]]
      | g :: gs => (c :: g) :: gs

/-- JS `String.prototype.split` with a single-character separator. -/
def jsSplit (sep : Char) (s : String) : List String :=
  (jsSplitChars sep s.data).map (fun cs => ⟨cs⟩)

/-- The whitespace characters relevant to `String.prototype.trim` for
this code's inputs. -/
def jsIsWhitespace (c : Char) : Bool :=
  decide (c = ' ' ∨ c = '\t' ∨ c = '\n' ∨ c = '\r')

/-- JS `String.prototype.trim`. -/
def jsTrim (s : String) : String :=
  ⟨((s.data.dropWhile jsIsWhitespace).reverse.dropWhile jsIsWhitespace).reverse⟩

/-- JS `String.prototype.toLowerCase` (ASCII, as used for the location
names of this code). -/
def jsToLower (s : String) : String := ⟨s.data.map Char.toLower⟩

/-- JS `parseInt(s, 10)`: skip leading whitespace, optional sign, then
leading decimal digits; `NaN` (no digits) is modelled as `none`. -/
def jsParseInt (s : String) : Option Int :=
  let cs := (jsTrim s).data
  let p : Int × List Char :=
    match cs with
    | '-' :: t => (-1, t)
    | '+' :: t => (1, t)
    | _ => (1, cs)
  let digits := p.2.takeWhile Char.isDigit
  if digits.isEmpty then none
  else some (p.1 * ((digits.foldl (fun a c => a * 10 + (c.toNat - '0'.toNat)) 0 : Nat) : Int))

/-- The value a row assigns to `entry[field]`: `headers.forEach` writes
`entry[header] = values[index]` in order, so a duplicated header keeps
the value of its last occurrence; a missing value (`values[index]`
out of range) is `undefined`, i.e. `none`. -/
def rowValue (headers values : List String) (field : String) : Option String :=
  match headers.reverse.indexOf? field with
  | none => none
  | some j => values.get? (headers.length - 1 - j)

/-- A row-level skip message (`errors.push(...)`): the row number as
displayed (`i + 1`) and the offending email or location name. -/
inductive SkipMsg where
  | dupEmail (row : Nat) (email : Option String)
  | unknownLocation (row : Nat) (locName : String)
deriving DecidableEq, Repr

/-- Result of the row-processing loop. -/
inductive ImportLoopResult where
  | ok (added : Nat) (errors : List SkipMsg) (st : ApiState)
  | crashed (st : ApiState)
deriving DecidableEq, Repr

/-- The row loop of `importUsersFromCSV` (`for (let i = 1; …)`).
`i` is the index of the current line in the `lines` array; `emails` is
the `existingEmails` set (a JS `Set` may contain `undefined`, hence
`Option String`).  A row whose email is not a duplicate but whose
`locationName` column has no value crashes with a `TypeError`
(`undefined.toLowerCase()`), rejecting the promise and keeping the
mutations of the rows already processed. -/
def importLoop (headers : List String) :
    List String → Nat → ApiState → List (Option String) → List SkipMsg → Nat →
    ImportLoopResult
  | [], _, st, _, errs, added => .ok added errs st
  | line :: rest, i, st, emails, errs, added =>
    let values := (jsSplit ',' line).map jsTrim
    let email? := rowValue headers values "email"
    if emails.contains email? then
      importLoop headers rest (i + 1) st emails (errs ++ [.dupEmail (i + 1) email?]) added
    else
      match rowValue headers values "locationName" with
      | none => .crashed st
      | some locName =>
        match st.locations.find? (fun l => decide (jsToLower l.name = jsToLower locName)) with
        | none =>
          importLoop headers rest (i + 1) st emails
            (errs ++ [.unknownLocation (i + 1) locName]) added
        | some loc =>
          let newUser : User :=
            { id := st.nextUserId
              employeeId := rowValue headers values "employeeId"
              name := rowValue headers values "name"
              email := email?
              role := Role.associate
              locationId := loc.id
              teamId :=
                match rowValue headers values "teamId" with
                | none => none
                | some s => if s = "" then none else jsParseInt s }
          importLoop headers rest (i + 1)
            { st with users := st.users ++ [newUser], nextUserId := st.nextUserId + 1 }
            (emails ++ [email?]) errs (added + 1)

/-- Outcome of `importUsersFromCSV`.  `report` carries the counts and
messages the final string is assembled from: `newUsersAdded`, the full
error list, the surfaced prefix (`errors.slice(0, 5)`), whether the
`"...and more."` truncation notice is appended (`errors.length > 5`),
and the resolved `success` flag (`newUsersAdded > 0`). -/
inductive ImportOutcome where
  | missingHeader (h : String)
  | report (newUsersAdded : Nat) (errors : List SkipMsg) (surfaced : List SkipMsg)
      (truncated : Bool) (success : Bool)
  | crashed
deriving DecidableEq, Repr

/-- `apiService.importUsersFromCSV(csvText)`.  An entirely blank payload
crashes (`lines[0]` is `undefined`); a missing required header resolves
a failure before any row is processed. -/
def importUsersFromCSV (st : ApiState) (csvText : String) : ImportOutcome × ApiState :=
  let lines := (jsSplit '\n' csvText).filter (fun l => !(jsTrim l == ""))
  match lines with
  | [] => (.crashed, st)
  | first :: restLines =>
    let headers := (jsSplit ',' first).map jsTrim
    let required := ["employeeId", "name", "email", "locationName"]
    match required.find? (fun h => !(headers.contains h)) with
    | some h => (.missingHeader h, st)
    | none =>
      match importLoop headers restLines 1 st (st.users.map User.email) [] 0 with
      | .ok added errs st' =>
        (.report added errs (errs.take 5) (decide (5 < errs.length)) (decide (0 < added)), st')
      | .crashed st' => (.crashed, st')

/-! ## Helper lemmas -/

lemma countP_enumFrom (q : α → Bool) :
    ∀ (n : Nat) (l : List α), (List.enumFrom n l).countP (fun p => q p.2) = l.countP q := by
  intro n l
  induction l generalizing n with
  | nil => rfl
  | cons x xs ih => simp [List.enumFrom, List.countP_cons, ih]

lemma countP_enum (q : α → Bool) (l : List α) :
    l.enum.countP (fun p => q p.2) = l.countP q :=
  countP_enumFrom q 0 l

lemma eraseIdx_findIdx?_spec (p : α → Bool) :
    ∀ (l : List α) (i : Nat), l.findIdx? p = some i →
      (l.eraseIdx i).length + 1 = l.length ∧
      (l.eraseIdx i).countP p + 1 = l.countP p := by
  intro l
  induction l with
  | nil => intro i h; simp at h
  | cons x xs ih =>
    intro i h
    rw [List.findIdx?_cons] at h
    by_cases hp : p x
    · rw [if_pos hp] at h
      injection h with h0
      subst h0
      simp [List.countP_cons, hp]
    · rw [if_neg hp] at h
      rw [List.findIdx?_succ] at h
      cases hfi : xs.findIdx? p with
      | none => rw [hfi] at h; simp at h
      | some j =>
        rw [hfi] at h
        simp only [Option.map_some'] at h
        injection h with h0
        subst h0
        obtain ⟨ih1, ih2⟩ := ih j hfi
        simp only [List.eraseIdx_cons_succ, List.length_cons, List.countP_cons, hp]
        omega

lemma mem_insertAsc (x a : Int) : ∀ (l : List Int), x ∈ insertAsc a l ↔ x = a ∨ x ∈ l := by
  intro l
  induction l with
  | nil => simp [insertAsc]
  | cons y ys ih =>
    simp only [insertAsc]
    split
    · simp
    · simp only [List.mem_cons, ih]
      tauto

lemma mem_sortAsc (x : Int) (l : List Int) : x ∈ sortAsc l ↔ x ∈ l := by
  induction l with
  | nil => simp [sortAsc]
  | cons y ys ih =>
    simp only [sortAsc, List.foldr_cons] at *
    rw [mem_insertAsc]
    simp [ih]

lemma find?_range7_none (p : Nat → Bool) (h : ∀ k, k < 7 → p k = false) :
    (List.range 7).find? p = none := by
  rw [List.find?_eq_none]
  intro x hx
  rw [List.mem_range] at hx
  simp [h x hx]

lemma find?_range7_first (p : Nat → Bool) (k : Nat) (hk : k < 7) (hpk : p k = true)
    (hmin : ∀ j, j < k → p j = false) : (List.range 7).find? p = some k := by
  have hr : List.range 7 = [0, 1, 2, 3, 4, 5, 6] := rfl
  rw [hr]
  interval_cases k <;>
    simp_all [List.find?]

/-! ## Claim theorems -/

/-- Claim C6: the week-number function `getWeek` used to gate the weekly
policy computes the Thursday-anchored ISO-8601 week number — the week
containing the year's first Thursday is week 1 — and agrees with the
ISO-8601 definition (`isoWeekSpec`, written from the standard's words)
on every input date. -/
theorem C6_getWeek_is_iso8601 (x : Ymd) : getWeek x = isoWeekSpec x := by
  simp only [getWeek, isoWeekSpec]
  exact getWeekDay_eq_iso x.toDays

/-- Claim C1: for every state, user and non-empty list of requested
dates, `submitBookings` resolves successfully, appends exactly one new
confirmed `Booking` per requested date (counted with multiplicity), and
touches no waitlist entry; and because no location capacity is ever
consulted, there is an input on which the count of confirmed bookings of
a location's users for a date strictly exceeds the location's capacity
after the call. -/
theorem C1_submit_unconditional (st : ApiState) (userId : Int) (dates : List Ymd)
    (hne : dates ≠ []) :
    ((submitBookings st userId dates).1.success = true ∧
     (submitBookings st userId dates).2.bookings.length =
       st.bookings.length + dates.length ∧
     (∀ d : Ymd,
       ((submitBookings st userId dates).2.bookings.countP (fun b =>
         decide (b.userId = userId ∧ b.date = d ∧ b.status = BookingStatus.confirmed))) =
       (st.bookings.countP (fun b =>
         decide (b.userId = userId ∧ b.date = d ∧ b.status = BookingStatus.confirmed))) +
       dates.countP (fun x => decide (x = d))) ∧
     (submitBookings st userId dates).2.waitlist = st.waitlist) ∧
    (∃ (st₀ : ApiState) (u : Int) (ds : List Ymd) (loc : Location) (d : Ymd),
      loc ∈ st₀.locations ∧
      loc.capacity <
        (((submitBookings st₀ u ds).2.bookings.filter (fun b =>
            decide (b.date = d ∧ b.status = BookingStatus.confirmed ∧
              ∃ v ∈ st₀.users, v.id = b.userId ∧ v.locationId = loc.id))).length : Int)) := by
  constructor
  · refine ⟨rfl, ?_, ?_, rfl⟩
    · simp [submitBookings, List.enum_length]
    · intro d
      simp only [submitBookings, List.countP_append]
      have hmap : (dates.enum.map (fun p =>
          { id := st.nextBookingId + (p.1 : Int), userId := userId, date := p.2,
            status := BookingStatus.confirmed : Booking })).countP (fun b =>
          decide (b.userId = userId ∧ b.date = d ∧ b.status = BookingStatus.confirmed)) =
          dates.countP (fun x => decide (x = d)) := by
        rw [List.countP_map]
        rw [show ((fun b => decide (b.userId = userId ∧ b.date = d ∧
            b.status = BookingStatus.confirmed)) ∘ (fun (p : Nat × Ymd) =>
            { id := st.nextBookingId + (p.1 : Int), userId := userId, date := p.2,
              status := BookingStatus.confirmed : Booking })) =
            (fun (p : Nat × Ymd) => decide (p.2 = d)) from by
          funext p
          simp]
        exact countP_enum (fun x => decide (x = d)) dates
      rw [hmap]
  · refine ⟨{ locations := [⟨1, "Bengaluru", 1⟩],
              users := [⟨1, some "E100", some "Rajesh Kumar", some "r@c.com",
                Role.associate, 1, none⟩],
              bookings := [], waitlist := [],
              nextBookingId := 1, nextWaitlistId := 1, nextUserId := 2 },
            1, [⟨2025, 6, 2⟩, ⟨2025, 6, 2⟩], ⟨1, "Bengaluru", 1⟩, ⟨2025, 6, 2⟩,
            by decide, by decide⟩

/-- Claim C10: `getMonthlyBookingStatus` for a `locationId` not present
in the locations table resolves with the empty mapping rather than an
error (the operation is a pure read of the state, so the ledger is
untouched by construction). -/
theorem C10_unknown_location_empty (st : ApiState) (locationId year month0 : Int)
    (h : ∀ l ∈ st.locations, l.id ≠ locationId) :
    getMonthlyBookingStatus st locationId year month0 = [] := by
  unfold getMonthlyBookingStatus
  have hf : st.locations.find? (fun l => decide (l.id = locationId)) = none := by
    rw [List.find?_eq_none]
    intro l hl
    simp [h l hl]
  rw [hf]

/-- Witness for C10 at a concrete state and unknown location id. -/
theorem C10_witness :
    (∀ l ∈ ([⟨1, "Bengaluru", 450⟩] : List Location), l.id ≠ 99) ∧
    getMonthlyBookingStatus
      { locations := [⟨1, "Bengaluru", 450⟩], users := [], bookings := [],
        waitlist := [], nextBookingId := 1, nextWaitlistId := 1, nextUserId := 1 }
      99 2025 5 = [] :=
  ⟨by decide,
   C10_unknown_location_empty
     { locations := [⟨1, "Bengaluru", 450⟩], users := [], bookings := [],
       waitlist := [], nextBookingId := 1, nextWaitlistId := 1, nextUserId := 1 }
     99 2025 5 (by decide)⟩

/-- Witness for C1 at a concrete state and a two-copy submission of one
date against a capacity-1 location. -/
theorem C1_witness :
    (([⟨2025, 6, 2⟩, ⟨2025, 6, 2⟩] : List Ymd) ≠ []) ∧
    ((submitBookings
        { locations := [⟨1, "Bengaluru", 1⟩],
          users := [⟨1, some "E100", some "Rajesh Kumar", some "r@c.com",
            Role.associate, 1, none⟩],
          bookings := [], waitlist := [],
          nextBookingId := 1, nextWaitlistId := 1, nextUserId := 2 }
        1 [⟨2025, 6, 2⟩, ⟨2025, 6, 2⟩]).1.success = true ∧
     (submitBookings
        { locations := [⟨1, "Bengaluru", 1⟩],
          users := [⟨1, some "E100", some "Rajesh Kumar", some "r@c.com",
            Role.associate, 1, none⟩],
          bookings := [], waitlist := [],
          nextBookingId := 1, nextWaitlistId := 1, nextUserId := 2 }
        1 [⟨2025, 6, 2⟩, ⟨2025, 6, 2⟩]).2.bookings.length = 0 + 2) := by
  refine ⟨by decide, ?_, ?_⟩
  · exact (C1_submit_unconditional
      { locations := [⟨1, "Bengaluru", 1⟩],
        users := [⟨1, some "E100", some "Rajesh Kumar", some "r@c.com",
          Role.associate, 1, none⟩],
        bookings := [], waitlist := [],
        nextBookingId := 1, nextWaitlistId := 1, nextUserId := 2 }
      1 [⟨2025, 6, 2⟩, ⟨2025, 6, 2⟩] (by decide)).1.1
  · exact (C1_submit_unconditional
      { locations := [⟨1, "Bengaluru", 1⟩],
        users := [⟨1, some "E100", some "Rajesh Kumar", some "r@c.com",
          Role.associate, 1, none⟩],
        bookings := [], waitlist := [],
        nextBookingId := 1, nextWaitlistId := 1, nextUserId := 2 }
      1 [⟨2025, 6, 2⟩, ⟨2025, 6, 2⟩] (by decide)).1.2.1

/-- Claim C3: `confirmWaitlist` removes exactly one waitlist entry for
the (userId, date) and inserts exactly one confirmed booking when such
an entry exists; it fails with the not-on-waitlist error and leaves the
state untouched when none exists; and after a successful promotion of
the only entry for the pair, a replay call fails and changes nothing. -/
theorem C3_confirmWaitlist_promotion (st : ApiState) (userId : Int) (date : Ymd) :
    ((∃ w ∈ st.waitlist, w.userId = userId ∧ w.date = date) →
      ∃ st', confirmWaitlist st userId date = (Except.ok (), st') ∧
        st'.waitlist.length + 1 = st.waitlist.length ∧
        st'.waitlist.countP (fun w => decide (w.userId = userId ∧ w.date = date)) + 1 =
          st.waitlist.countP (fun w => decide (w.userId = userId ∧ w.date = date)) ∧
        st'.bookings = st.bookings ++
          [{ id := st.nextBookingId, userId := userId, date := date,
             status := BookingStatus.confirmed }]) ∧
    ((∀ w ∈ st.waitlist, ¬(w.userId = userId ∧ w.date = date)) →
      confirmWaitlist st userId date = (Except.error "User not found on waitlist.", st)) ∧
    (st.waitlist.countP (fun w => decide (w.userId = userId ∧ w.date = date)) = 1 →
      (confirmWaitlist (confirmWaitlist st userId date).2 userId date).1 =
        Except.error "User not found on waitlist." ∧
      (confirmWaitlist (confirmWaitlist st userId date).2 userId date).2 =
        (confirmWaitlist st userId date).2) := by
  have hkey : ∀ (s : ApiState),
      s.waitlist.countP (fun w => decide (w.userId = userId ∧ w.date = date)) = 0 →
      confirmWaitlist s userId date = (Except.error "User not found on waitlist.", s) := by
    intro s hz
    unfold confirmWaitlist
    have hn : s.waitlist.findIdx? (fun w => decide (w.userId = userId ∧ w.date = date)) =
        none := by
      rw [List.findIdx?_eq_none_iff]
      intro x hx
      have := List.countP_eq_zero.mp hz x hx
      simpa using this
    rw [hn]
  refine ⟨?_, ?_, ?_⟩
  · rintro ⟨w, hw, hw1, hw2⟩
    cases hfi : st.waitlist.findIdx? (fun w => decide (w.userId = userId ∧ w.date = date)) with
    | none =>
      exfalso
      have := List.findIdx?_eq_none_iff.mp hfi w hw
      simp [hw1, hw2] at this
    | some i =>
      obtain ⟨h1, h2⟩ := eraseIdx_findIdx?_spec _ st.waitlist i hfi
      have heq : confirmWaitlist st userId date =
          (Except.ok (),
           { st with
             waitlist := st.waitlist.eraseIdx i,
             bookings := st.bookings ++
               [{ id := st.nextBookingId, userId := userId, date := date,
                  status := BookingStatus.confirmed }],
             nextBookingId := st.nextBookingId + 1 }) := by
        unfold confirmWaitlist
        rw [hfi]
      exact ⟨_, heq, h1, h2, rfl⟩
  · intro h
    apply hkey
    rw [List.countP_eq_zero]
    intro x hx
    simpa using h x hx
  · intro hone
    have hpos : 0 < st.waitlist.countP (fun w => decide (w.userId = userId ∧ w.date = date)) := by
      omega
    obtain ⟨w, hw, hpw⟩ := List.countP_pos_iff.mp hpos
    have hw' : w.userId = userId ∧ w.date = date := by simpa using hpw
    cases hfi : st.waitlist.findIdx? (fun w => decide (w.userId = userId ∧ w.date = date)) with
    | none =>
      exfalso
      have := List.findIdx?_eq_none_iff.mp hfi w hw
      simp [hw'.1, hw'.2] at this
    | some i =>
      obtain ⟨h1, h2⟩ := eraseIdx_findIdx?_spec _ st.waitlist i hfi
      have hsnd : (confirmWaitlist st userId date).2 =
          { st with
            waitlist := st.waitlist.eraseIdx i,
            bookings := st.bookings ++
              [{ id := st.nextBookingId, userId := userId, date := date,
                 status := BookingStatus.confirmed }],
            nextBookingId := st.nextBookingId + 1 } := by
        unfold confirmWaitlist
        rw [hfi]
      have hz0 : (st.waitlist.eraseIdx i).countP
          (fun w => decide (w.userId = userId ∧ w.date = date)) = 0 := by
        omega
      have hz : ((confirmWaitlist st userId date).2).waitlist.countP
          (fun w => decide (w.userId = userId ∧ w.date = date)) = 0 := by
        rw [hsnd]
        exact hz0
      have herr := hkey _ hz
      rw [herr]
      exact ⟨rfl, rfl⟩

/-- Witness for C3: promotion of the only entry succeeds and the replay
fails, at a concrete one-entry state; at a concrete empty-waitlist state
the call fails and leaves the state unchanged. -/
theorem C3_witness :
    (([⟨1, 2, ⟨2025, 6, 2⟩, 10⟩] : List WaitlistEntry).countP
        (fun w => decide (w.userId = 2 ∧ w.date = (⟨2025, 6, 2⟩ : Ymd))) = 1 ∧
     (confirmWaitlist
        (confirmWaitlist
          { locations := [⟨1, "Bengaluru", 450⟩],
            users := [⟨2, some "E100", some "Rajesh Kumar", some "r@c.com",
              Role.associate, 1, none⟩],
            bookings := [], waitlist := [⟨1, 2, ⟨2025, 6, 2⟩, 10⟩],
            nextBookingId := 1, nextWaitlistId := 2, nextUserId := 3 }
          2 ⟨2025, 6, 2⟩).2 2 ⟨2025, 6, 2⟩).1 =
        Except.error "User not found on waitlist.") ∧
    confirmWaitlist
      { locations := [], users := [], bookings := [], waitlist := [],
        nextBookingId := 1, nextWaitlistId := 1, nextUserId := 1 }
      7 ⟨2025, 6, 2⟩ =
      (Except.error "User not found on waitlist.",
       { locations := [], users := [], bookings := [], waitlist := [],
         nextBookingId := 1, nextWaitlistId := 1, nextUserId := 1 }) := by
  refine ⟨⟨by decide, ?_⟩, ?_⟩
  · exact ((C3_confirmWaitlist_promotion
      { locations := [⟨1, "Bengaluru", 450⟩],
        users := [⟨2, some "E100", some "Rajesh Kumar", some "r@c.com",
          Role.associate, 1, none⟩],
        bookings := [], waitlist := [⟨1, 2, ⟨2025, 6, 2⟩, 10⟩],
        nextBookingId := 1, nextWaitlistId := 2, nextUserId := 3 }
      2 ⟨2025, 6, 2⟩).2.2 (by decide)).1
  · exact (C3_confirmWaitlist_promotion
      { locations := [], users := [], bookings := [], waitlist := [],
        nextBookingId := 1, nextWaitlistId := 1, nextUserId := 1 }
      7 ⟨2025, 6, 2⟩).2.1 (by decide)

/-- Claim C8: the dashboard's representative day is the first of days
1..7 of the next calendar month that is neither a Saturday nor a Sunday
nor a listed public holiday; if all seven are weekend or holiday it is
the 3rd of that month, even when the 3rd is itself such a day. -/
theorem C8_representative_day (today : Ymd) :
    ((∀ i : Nat, 1 ≤ i → i ≤ 7 →
        (jsGetUTCDay (Ymd.toDays ⟨if today.m = 12 then today.y + 1 else today.y,
            if today.m = 12 then 1 else today.m + 1, (i : Int)⟩) = 0 ∨
         jsGetUTCDay (Ymd.toDays ⟨if today.m = 12 then today.y + 1 else today.y,
            if today.m = 12 then 1 else today.m + 1, (i : Int)⟩) = 6 ∨
         isHoliday (if today.m = 12 then today.y + 1 else today.y)
            ⟨if today.m = 12 then today.y + 1 else today.y,
             if today.m = 12 then 1 else today.m + 1, (i : Int)⟩ = true)) →
      getDashboardDemoDay today =
        ⟨if today.m = 12 then today.y + 1 else today.y,
         if today.m = 12 then 1 else today.m + 1, 3⟩) ∧
    (∀ i : Nat, 1 ≤ i → i ≤ 7 →
      ¬ (jsGetUTCDay (Ymd.toDays ⟨if today.m = 12 then today.y + 1 else today.y,
            if today.m = 12 then 1 else today.m + 1, (i : Int)⟩) = 0 ∨
         jsGetUTCDay (Ymd.toDays ⟨if today.m = 12 then today.y + 1 else today.y,
            if today.m = 12 then 1 else today.m + 1, (i : Int)⟩) = 6 ∨
         isHoliday (if today.m = 12 then today.y + 1 else today.y)
            ⟨if today.m = 12 then today.y + 1 else today.y,
             if today.m = 12 then 1 else today.m + 1, (i : Int)⟩ = true) →
      (∀ j : Nat, 1 ≤ j → j < i →
        (jsGetUTCDay (Ymd.toDays ⟨if today.m = 12 then today.y + 1 else today.y,
            if today.m = 12 then 1 else today.m + 1, (j : Int)⟩) = 0 ∨
         jsGetUTCDay (Ymd.toDays ⟨if today.m = 12 then today.y + 1 else today.y,
            if today.m = 12 then 1 else today.m + 1, (j : Int)⟩) = 6 ∨
         isHoliday (if today.m = 12 then today.y + 1 else today.y)
            ⟨if today.m = 12 then today.y + 1 else today.y,
             if today.m = 12 then 1 else today.m + 1, (j : Int)⟩ = true)) →
      getDashboardDemoDay today =
        ⟨if today.m = 12 then today.y + 1 else today.y,
         if today.m = 12 then 1 else today.m + 1, (i : Int)⟩) := by
  set Y := (if today.m = 12 then today.y + 1 else today.y) with hY
  set M := (if today.m = 12 then 1 else today.m + 1) with hM
  constructor
  · intro hall
    have hnone : (List.range 7).find? (demoDayOk Y M) = none := by
      apply find?_range7_none
      intro k hk
      unfold demoDayOk
      apply decide_eq_false
      have hday := hall (k + 1) (by omega) (by omega)
      push_cast at hday ⊢
      tauto
    simp only [getDashboardDemoDay, ← hY, ← hM, hnone]
  · intro i hi1 hi7 hgood hmin
    have hsome : (List.range 7).find? (demoDayOk Y M) = some (i - 1) := by
      apply find?_range7_first _ (i - 1) (by omega)
      · unfold demoDayOk
        apply decide_eq_true
        have hc : (i - 1 + 1 : Nat) = i := by omega
        rw [hc]
        tauto
      · intro j hj
        unfold demoDayOk
        apply decide_eq_false
        have hday := hmin (j + 1) (by omega) (by omega)
        push_cast at hday ⊢
        tauto
    simp only [getDashboardDemoDay, ← hY, ← hM, hsome]
    have hc : (i - 1 + 1 : Nat) = i := by omega
    rw [hc]

/-- Witness for C8: for today = 2025-05-15 the next month is June 2025,
whose 1st is a Sunday and whose 2nd is a holiday-free Monday, so the
representative day is 2025-06-02. -/
theorem C8_witness :
    getDashboardDemoDay ⟨2025, 5, 15⟩ = ⟨2025, 6, 2⟩ := by
  have h := (C8_representative_day ⟨2025, 5, 15⟩).2 2 (by omega) (by omega)
    (by decide) (by intro j hj1 hj2; interval_cases j; decide)
  simpa using h

/-- The specification's count for `DayStatus.bookings`: confirmed
bookings by users assigned to the location, on the date. -/
def confirmedCountSpec (st : ApiState) (locationId : Int) (d : Ymd) : Nat :=
  (st.bookings.filter (fun b => decide (b.date = d ∧ b.status = BookingStatus.confirmed ∧
    ∃ u ∈ st.users, u.id = b.userId ∧ u.locationId = locationId))).length

/-- The specification's count for `DayStatus.waitlist`: waitlist entries
by users assigned to the location, on the date. -/
def waitlistCountSpec (st : ApiState) (locationId : Int) (d : Ymd) : Nat :=
  (st.waitlist.filter (fun w => decide (w.date = d ∧
    ∃ u ∈ st.users, u.id = w.userId ∧ u.locationId = locationId))).length

/-- Claim C5: for an existing location, `getMonthlyBookingStatus`
returns an entry for every calendar day of the month, whose `bookings`
and `waitlist` are the exact per-location counts of confirmed bookings
and waitlist entries on that date, with `isFull` iff
`bookings ≥ capacity` and `isWaitlistFull` iff `waitlist ≥ 20`. -/
theorem C5_monthlyStatus_counts (st : ApiState) (locationId year month0 : Int)
    (loc : Location)
    (hfind : st.locations.find? (fun l => decide (l.id = locationId)) = some loc)
    (day : Nat) (h1 : 1 ≤ day) (h2 : (day : Int) ≤ daysInMonth year month0) :
    (getMonthlyBookingStatus st locationId year month0).length =
      (daysInMonth year month0).toNat ∧
    (getMonthlyBookingStatus st locationId year month0)[day - 1]? =
      some (⟨year, month0 + 1, (day : Int)⟩,
        { bookings := confirmedCountSpec st locationId ⟨year, month0 + 1, (day : Int)⟩
          waitlist := waitlistCountSpec st locationId ⟨year, month0 + 1, (day : Int)⟩
          isFull := decide (loc.capacity ≤
            (confirmedCountSpec st locationId ⟨year, month0 + 1, (day : Int)⟩ : Int))
          isWaitlistFull := decide (20 ≤
            waitlistCountSpec st locationId ⟨year, month0 + 1, (day : Int)⟩) }) := by
  have hb : ∀ d : Ymd,
      (st.bookings.filter (fun b =>
        decide (b.date = d ∧
          b.userId ∈ (st.users.filter (fun u => decide (u.locationId = locationId))).map User.id ∧
          b.status = BookingStatus.confirmed))).length = confirmedCountSpec st locationId d := by
    intro d
    unfold confirmedCountSpec
    congr 1
    apply List.filter_congr
    intro b _
    apply decide_eq_decide.mpr
    simp only [List.mem_map, List.mem_filter, decide_eq_true_eq]
    constructor
    · rintro ⟨hd, ⟨u, ⟨hu, hloc⟩, hid⟩, hs⟩
      exact ⟨hd, hs, u, hu, hid, hloc⟩
    · rintro ⟨hd, hs, u, hu, hid, hloc⟩
      exact ⟨hd, ⟨u, ⟨hu, hloc⟩, hid⟩, hs⟩
  have hw : ∀ d : Ymd,
      (st.waitlist.filter (fun w =>
        decide (w.date = d ∧
          w.userId ∈ (st.users.filter (fun u => decide (u.locationId = locationId))).map User.id))).length =
        waitlistCountSpec st locationId d := by
    intro d
    unfold waitlistCountSpec
    congr 1
    apply List.filter_congr
    intro w _
    apply decide_eq_decide.mpr
    simp only [List.mem_map, List.mem_filter, decide_eq_true_eq]
    constructor
    · rintro ⟨hd, ⟨u, ⟨hu, hloc⟩, hid⟩⟩
      exact ⟨hd, u, hu, hid, hloc⟩
    · rintro ⟨hd, u, hu, hid, hloc⟩
      exact ⟨hd, u, ⟨hu, hloc⟩, hid⟩
  unfold getMonthlyBookingStatus
  rw [hfind]
  have hk : day - 1 < (daysInMonth year month0).toNat := by omega
  constructor
  · simp
  · have hr : (List.range (daysInMonth year month0).toNat)[day - 1]? = some (day - 1) := by
      simp [List.getElem?_range, hk]
    rw [List.getElem?_map, hr]
    simp only [Option.map_some']
    have hc : day - 1 + 1 = day := by omega
    rw [hc, hb, hw]

/-- Witness for C5 at a concrete state: June 2025 (month0 = 5) has 30
days; day 2 carries one confirmed booking of the location's only user
and an empty waitlist, and the capacity-1 location reports full. -/
theorem C5_witness :
    (([⟨1, "Bengaluru", 1⟩] : List Location).find?
        (fun l => decide (l.id = 1)) = some ⟨1, "Bengaluru", 1⟩ ∧
     (1 : Nat) ≤ 2 ∧ ((2 : Nat) : Int) ≤ daysInMonth 2025 5) ∧
    (getMonthlyBookingStatus
      { locations := [⟨1, "Bengaluru", 1⟩],
        users := [⟨7, some "E1", some "A", some "a@c.com", Role.associate, 1, none⟩],
        bookings := [⟨1, 7, ⟨2025, 6, 2⟩, BookingStatus.confirmed⟩],
        waitlist := [], nextBookingId := 2, nextWaitlistId := 1, nextUserId := 8 }
      1 2025 5).length = (daysInMonth 2025 5).toNat ∧
    (getMonthlyBookingStatus
      { locations := [⟨1, "Bengaluru", 1⟩],
        users := [⟨7, some "E1", some "A", some "a@c.com", Role.associate, 1, none⟩],
        bookings := [⟨1, 7, ⟨2025, 6, 2⟩, BookingStatus.confirmed⟩],
        waitlist := [], nextBookingId := 2, nextWaitlistId := 1, nextUserId := 8 }
      1 2025 5)[2 - 1]? =
      some (⟨2025, 5 + 1, ((2 : Nat) : Int)⟩,
        { bookings := confirmedCountSpec
            { locations := [⟨1, "Bengaluru", 1⟩],
              users := [⟨7, some "E1", some "A", some "a@c.com", Role.associate, 1, none⟩],
              bookings := [⟨1, 7, ⟨2025, 6, 2⟩, BookingStatus.confirmed⟩],
              waitlist := [], nextBookingId := 2, nextWaitlistId := 1, nextUserId := 8 }
            1 ⟨2025, 5 + 1, ((2 : Nat) : Int)⟩
          waitlist := waitlistCountSpec
            { locations := [⟨1, "Bengaluru", 1⟩],
              users := [⟨7, some "E1", some "A", some "a@c.com", Role.associate, 1, none⟩],
              bookings := [⟨1, 7, ⟨2025, 6, 2⟩, BookingStatus.confirmed⟩],
              waitlist := [], nextBookingId := 2, nextWaitlistId := 1, nextUserId := 8 }
            1 ⟨2025, 5 + 1, ((2 : Nat) : Int)⟩
          isFull := decide ((1 : Int) ≤
            (confirmedCountSpec
              { locations := [⟨1, "Bengaluru", 1⟩],
                users := [⟨7, some "E1", some "A", some "a@c.com", Role.associate, 1, none⟩],
                bookings := [⟨1, 7, ⟨2025, 6, 2⟩, BookingStatus.confirmed⟩],
                waitlist := [], nextBookingId := 2, nextWaitlistId := 1, nextUserId := 8 }
              1 ⟨2025, 5 + 1, ((2 : Nat) : Int)⟩ : Int))
          isWaitlistFull := decide (20 ≤
            waitlistCountSpec
              { locations := [⟨1, "Bengaluru", 1⟩],
                users := [⟨7, some "E1", some "A", some "a@c.com", Role.associate, 1, none⟩],
                bookings := [⟨1, 7, ⟨2025, 6, 2⟩, BookingStatus.confirmed⟩],
                waitlist := [], nextBookingId := 2, nextWaitlistId := 1, nextUserId := 8 }
              1 ⟨2025, 5 + 1, ((2 : Nat) : Int)⟩) }) := by
  refine ⟨⟨by decide, by omega, ?_⟩, ?_⟩
  · show ((2 : Nat) : Int) ≤ daysInMonth 2025 5
    decide
  · exact C5_monthlyStatus_counts
      { locations := [⟨1, "Bengaluru", 1⟩],
        users := [⟨7, some "E1", some "A", some "a@c.com", Role.associate, 1, none⟩],
        bookings := [⟨1, 7, ⟨2025, 6, 2⟩, BookingStatus.confirmed⟩],
        waitlist := [], nextBookingId := 2, nextWaitlistId := 1, nextUserId := 8 }
      1 2025 5 ⟨1, "Bengaluru", 1⟩ (by decide) 2 (by omega) (by decide)

/-- Claim C7: an associate appears in the non-compliant list iff their
count of confirmed bookings in the target month is strictly below 10,
and the reported `bookingCount` is exactly that count.  Users are
identified by their employee code, assumed unique among the users list
for the absence direction. -/
theorem C7_compliance_threshold (users : List User) (bookings : List Booking)
    (year month0 : Int) (u : User) (hu : u ∈ users) (hrole : u.role = Role.associate)
    (huniq : ∀ v ∈ users, v.employeeId = u.employeeId → v = u) :
    (monthlyConfirmedCount bookings year month0 u.id < 10 →
      ({ name := u.name, employeeId := u.employeeId,
         bookingCount := monthlyConfirmedCount bookings year month0 u.id } : NCRecord) ∈
        nonCompliantUsers users bookings year month0) ∧
    (10 ≤ monthlyConfirmedCount bookings year month0 u.id →
      ∀ r ∈ nonCompliantUsers users bookings year month0, r.employeeId ≠ u.employeeId) ∧
    (∀ r ∈ nonCompliantUsers users bookings year month0, r.employeeId = u.employeeId →
      r = { name := u.name, employeeId := u.employeeId,
            bookingCount := monthlyConfirmedCount bookings year month0 u.id }) := by
  refine ⟨?_, ?_, ?_⟩
  · intro hcnt
    unfold nonCompliantUsers
    rw [List.mem_map]
    refine ⟨u, ?_, rfl⟩
    rw [List.mem_filter, List.mem_filter]
    refine ⟨⟨hu, ?_⟩, ?_⟩
    · simpa using hrole
    · simpa using hcnt
  · intro hcnt r hr hemp
    unfold nonCompliantUsers at hr
    rw [List.mem_map] at hr
    obtain ⟨v, hv, hvr⟩ := hr
    rw [List.mem_filter, List.mem_filter] at hv
    obtain ⟨⟨hvmem, _⟩, hvcnt⟩ := hv
    have hvu : v = u := by
      apply huniq v hvmem
      have : r.employeeId = v.employeeId := by rw [← hvr]
      rw [← this, hemp]
    rw [hvu] at hvcnt
    simp at hvcnt
    omega
  · intro r hr hemp
    unfold nonCompliantUsers at hr
    rw [List.mem_map] at hr
    obtain ⟨v, hv, hvr⟩ := hr
    rw [List.mem_filter, List.mem_filter] at hv
    obtain ⟨⟨hvmem, _⟩, _⟩ := hv
    have hvu : v = u := by
      apply huniq v hvmem
      have : r.employeeId = v.employeeId := by rw [← hvr]
      rw [← this, hemp]
    rw [← hvr, hvu]

/-- Witness for C7 at a concrete population: in June 2025 (month0 = 5)
the user with 9 confirmed bookings appears with `bookingCount = 9` and
the user with 10 does not appear. -/
theorem C7_witness :
    (monthlyConfirmedCount
        (List.replicate 9 ⟨1, 1, ⟨2025, 6, 15⟩, BookingStatus.confirmed⟩ ++
         List.replicate 10 ⟨2, 2, ⟨2025, 6, 15⟩, BookingStatus.confirmed⟩)
        2025 5 1 = 9 ∧
     ({ name := some "A", employeeId := some "E1", bookingCount := 9 } : NCRecord) ∈
       nonCompliantUsers
         [⟨1, some "E1", some "A", some "a@c.com", Role.associate, 1, none⟩,
          ⟨2, some "E2", some "B", some "b@c.com", Role.associate, 1, none⟩]
         (List.replicate 9 ⟨1, 1, ⟨2025, 6, 15⟩, BookingStatus.confirmed⟩ ++
          List.replicate 10 ⟨2, 2, ⟨2025, 6, 15⟩, BookingStatus.confirmed⟩)
         2025 5) ∧
    (monthlyConfirmedCount
        (List.replicate 9 ⟨1, 1, ⟨2025, 6, 15⟩, BookingStatus.confirmed⟩ ++
         List.replicate 10 ⟨2, 2, ⟨2025, 6, 15⟩, BookingStatus.confirmed⟩)
        2025 5 2 = 10 ∧
     ∀ r ∈ nonCompliantUsers
         [⟨1, some "E1", some "A", some "a@c.com", Role.associate, 1, none⟩,
          ⟨2, some "E2", some "B", some "b@c.com", Role.associate, 1, none⟩]
         (List.replicate 9 ⟨1, 1, ⟨2025, 6, 15⟩, BookingStatus.confirmed⟩ ++
          List.replicate 10 ⟨2, 2, ⟨2025, 6, 15⟩, BookingStatus.confirmed⟩)
         2025 5, r.employeeId ≠ some "E2") := by
  refine ⟨⟨by decide, ?_⟩, by decide, ?_⟩
  · have h := (C7_compliance_threshold
      [⟨1, some "E1", some "A", some "a@c.com", Role.associate, 1, none⟩,
       ⟨2, some "E2", some "B", some "b@c.com", Role.associate, 1, none⟩]
      (List.replicate 9 ⟨1, 1, ⟨2025, 6, 15⟩, BookingStatus.confirmed⟩ ++
       List.replicate 10 ⟨2, 2, ⟨2025, 6, 15⟩, BookingStatus.confirmed⟩)
      2025 5
      ⟨1, some "E1", some "A", some "a@c.com", Role.associate, 1, none⟩
      (by decide) (by decide) (by decide)).1 (by decide)
    simpa using h
  · have h := (C7_compliance_threshold
      [⟨1, some "E1", some "A", some "a@c.com", Role.associate, 1, none⟩,
       ⟨2, some "E2", some "B", some "b@c.com", Role.associate, 1, none⟩]
      (List.replicate 9 ⟨1, 1, ⟨2025, 6, 15⟩, BookingStatus.confirmed⟩ ++
       List.replicate 10 ⟨2, 2, ⟨2025, 6, 15⟩, BookingStatus.confirmed⟩)
      2025 5
      ⟨2, some "E2", some "B", some "b@c.com", Role.associate, 1, none⟩
      (by decide) (by decide) (by decide)).2.1 (by decide)
    simpa using h

/-- The timestamp of a user's waitlist entry for a date (0 when none),
used to express the claimed FIFO ordering of `waitlistedUsers`. -/
def waitlistTimestampOf (st : ApiState) (date : Ymd) (u : User) : Int :=
  ((st.waitlist.find? (fun w => decide (w.userId = u.id ∧ w.date = date))).map
    WaitlistEntry.timestamp).getD 0

/-- The ordering claimed for `dayDetails`: the returned `waitlistedUsers`
sequence is sorted ascending by the timestamp of each user's waitlist
entry. -/
def WaitlistFIFOOrdered (st : ApiState) (date : Ymd) (locationId : Int) : Prop :=
  (getBookingsForDate st date locationId).2.Pairwise
    (fun a b => waitlistTimestampOf st date a ≤ waitlistTimestampOf st date b)

/-- Counterexample to claim C4: with two waitlisted users whose
timestamps invert their user-table order, `getBookingsForDate` returns
the users in table order, not FIFO order — the source sorts the
filtered entries by timestamp but then only collects their ids into a
`Set` and filters `mockUsers` by membership, discarding the order. -/
theorem C4_counterexample :
    ¬ WaitlistFIFOOrdered
        { locations := [⟨1, "Bengaluru", 450⟩],
          users := [⟨1, some "E1", some "A", some "a@c.com", Role.associate, 1, none⟩,
                    ⟨2, some "E2", some "B", some "b@c.com", Role.associate, 1, none⟩],
          bookings := [],
          waitlist := [⟨1, 2, ⟨2025, 6, 2⟩, 10⟩, ⟨2, 1, ⟨2025, 6, 2⟩, 20⟩],
          nextBookingId := 1, nextWaitlistId := 3, nextUserId := 3 }
        ⟨2025, 6, 2⟩ 1 := by
  unfold WaitlistFIFOOrdered
  intro h
  have hlist : (getBookingsForDate
      { locations := [⟨1, "Bengaluru", 450⟩],
        users := [⟨1, some "E1", some "A", some "a@c.com", Role.associate, 1, none⟩,
                  ⟨2, some "E2", some "B", some "b@c.com", Role.associate, 1, none⟩],
        bookings := [],
        waitlist := [⟨1, 2, ⟨2025, 6, 2⟩, 10⟩, ⟨2, 1, ⟨2025, 6, 2⟩, 20⟩],
        nextBookingId := 1, nextWaitlistId := 3, nextUserId := 3 }
      ⟨2025, 6, 2⟩ 1).2 =
      [⟨1, some "E1", some "A", some "a@c.com", Role.associate, 1, none⟩,
       ⟨2, some "E2", some "B", some "b@c.com", Role.associate, 1, none⟩] := by decide
  rw [hlist] at h
  rw [List.pairwise_cons] at h
  have h12 := h.1 _ (List.mem_singleton_self _)
  revert h12
  decide

/-- Claim C4 as amended: `waitlistedUsers` contains exactly the
location's waitlisted users, but in user-table order (the order of the
users collection), not sorted by entry timestamp; re-querying the same
state yields the same result. -/
theorem C4_amended_table_order (st : ApiState) (date : Ymd) (locationId : Int) :
    (getBookingsForDate st date locationId).2 =
      st.users.filter (fun u => decide (∃ w ∈ st.waitlist, w.userId = u.id ∧ w.date = date ∧
        ∃ v ∈ st.users, v.id = w.userId ∧ v.locationId = locationId)) ∧
    ∀ st2 : ApiState, st2 = st →
      getBookingsForDate st2 date locationId = getBookingsForDate st date locationId := by
  constructor
  · show st.users.filter _ = _
    apply List.filter_congr
    intro u _
    apply decide_eq_decide.mpr
    simp only [List.mem_map, List.mem_filter, decide_eq_true_eq]
    constructor
    · rintro ⟨w, ⟨hw, hwd, v, ⟨hv, hvloc⟩, hvid⟩, hwid⟩
      exact ⟨w, hw, hwid, hwd, v, hv, hvid, hvloc⟩
    · rintro ⟨w, hw, hwid, hwd, v, hv, hvid, hvloc⟩
      exact ⟨w, ⟨hw, hwd, v, ⟨hv, hvloc⟩, hvid⟩, hwid⟩
  · intro st2 h
    rw [h]

/-- Witness for C4's amended theorem at the counterexample state: the
returned sequence equals the user-table-order filter. -/
theorem C4_witness :
    (getBookingsForDate
      { locations := [⟨1, "Bengaluru", 450⟩],
        users := [⟨1, some "E1", some "A", some "a@c.com", Role.associate, 1, none⟩,
                  ⟨2, some "E2", some "B", some "b@c.com", Role.associate, 1, none⟩],
        bookings := [],
        waitlist := [⟨1, 2, ⟨2025, 6, 2⟩, 10⟩, ⟨2, 1, ⟨2025, 6, 2⟩, 20⟩],
        nextBookingId := 1, nextWaitlistId := 3, nextUserId := 3 }
      ⟨2025, 6, 2⟩ 1).2 =
      ({ locations := [⟨1, "Bengaluru", 450⟩],
         users := [⟨1, some "E1", some "A", some "a@c.com", Role.associate, 1, none⟩,
                   ⟨2, some "E2", some "B", some "b@c.com", Role.associate, 1, none⟩],
         bookings := [],
         waitlist := [⟨1, 2, ⟨2025, 6, 2⟩, 10⟩, ⟨2, 1, ⟨2025, 6, 2⟩, 20⟩],
         nextBookingId := 1, nextWaitlistId := 3, nextUserId := 3 } : ApiState).users.filter
        (fun u => decide (∃ w ∈ ([⟨1, 2, ⟨2025, 6, 2⟩, 10⟩, ⟨2, 1, ⟨2025, 6, 2⟩, 20⟩] :
            List WaitlistEntry), w.userId = u.id ∧ w.date = (⟨2025, 6, 2⟩ : Ymd) ∧
          ∃ v ∈ ([⟨1, some "E1", some "A", some "a@c.com", Role.associate, 1, none⟩,
                  ⟨2, some "E2", some "B", some "b@c.com", Role.associate, 1, none⟩] : List User),
            v.id = w.userId ∧ v.locationId = 1)) ∧
    getBookingsForDate
      { locations := [⟨1, "Bengaluru", 450⟩],
        users := [⟨1, some "E1", some "A", some "a@c.com", Role.associate, 1, none⟩,
                  ⟨2, some "E2", some "B", some "b@c.com", Role.associate, 1, none⟩],
        bookings := [],
        waitlist := [⟨1, 2, ⟨2025, 6, 2⟩, 10⟩, ⟨2, 1, ⟨2025, 6, 2⟩, 20⟩],
        nextBookingId := 1, nextWaitlistId := 3, nextUserId := 3 }
      ⟨2025, 6, 2⟩ 1 =
    getBookingsForDate
      { locations := [⟨1, "Bengaluru", 450⟩],
        users := [⟨1, some "E1", some "A", some "a@c.com", Role.associate, 1, none⟩,
                  ⟨2, some "E2", some "B", some "b@c.com", Role.associate, 1, none⟩],
        bookings := [],
        waitlist := [⟨1, 2, ⟨2025, 6, 2⟩, 10⟩, ⟨2, 1, ⟨2025, 6, 2⟩, 20⟩],
        nextBookingId := 1, nextWaitlistId := 3, nextUserId := 3 }
      ⟨2025, 6, 2⟩ 1 :=
  ⟨(C4_amended_table_order
    { locations := [⟨1, "Bengaluru", 450⟩],
      users := [⟨1, some "E1", some "A", some "a@c.com", Role.associate, 1, none⟩,
                ⟨2, some "E2", some "B", some "b@c.com", Role.associate, 1, none⟩],
      bookings := [],
      waitlist := [⟨1, 2, ⟨2025, 6, 2⟩, 10⟩, ⟨2, 1, ⟨2025, 6, 2⟩, 20⟩],
      nextBookingId := 1, nextWaitlistId := 3, nextUserId := 3 }
    ⟨2025, 6, 2⟩ 1).1,
   (C4_amended_table_order
    { locations := [⟨1, "Bengaluru", 450⟩],
      users := [⟨1, some "E1", some "A", some "a@c.com", Role.associate, 1, none⟩,
                ⟨2, some "E2", some "B", some "b@c.com", Role.associate, 1, none⟩],
      bookings := [],
      waitlist := [⟨1, 2, ⟨2025, 6, 2⟩, 10⟩, ⟨2, 1, ⟨2025, 6, 2⟩, 20⟩],
      nextBookingId := 1, nextWaitlistId := 3, nextUserId := 3 }
    ⟨2025, 6, 2⟩ 1).2 _ rfl⟩

/-- Week groups are non-empty only for week numbers of selected dates. -/
lemma isViolatingWeek_mem (status : Ymd → Option DayStatus) (cm1 : Int)
    (dates : List Ymd) (w : Int) :
    isViolatingWeek status cm1 dates w = true → ∃ d ∈ dates, getWeek d = w := by
  unfold isViolatingWeek
  cases hg : (groupOf dates w).head? with
  | none => simp
  | some d0 =>
    intro _
    have hmem : d0 ∈ groupOf dates w := by
      cases hl : groupOf dates w with
      | nil => rw [hl] at hg; simp at hg
      | cons x xs =>
        rw [hl] at hg
        simp only [List.head?_cons, Option.some.injEq] at hg
        rw [← hg]
        exact List.mem_cons_self x xs
    unfold groupOf at hmem
    rw [List.mem_filter] at hmem
    exact ⟨d0, hmem.1, by simpa using hmem.2⟩

/-- Claim C2: for a batch grouped by ISO week number, a week group whose
Sunday-anchored week lies wholly in the viewed month, has no completely
exhausted day, and holds fewer than 3 selected days makes the entire
submission fail with no booking or waitlist mutation, the error naming
the start of a violating week (exactly this week's start when it is the
only violating one); a week with a completely exhausted day passes the
check regardless of its size (so a 1-day selection passes); a week with
at least 3 selected days always passes. -/
theorem C2_weekly_minimum (st : ApiState) (uid : Int)
    (status : Ymd → Option DayStatus) (cm1 : Int) (dates : List Ymd)
    (w : Int) (d0 : Ymd) (hd0 : (groupOf dates w).head? = some d0) :
    (((daysToCivil (sundayStartDays d0)).m = cm1 ∧
      (daysToCivil (sundayStartDays d0 + 6)).m = cm1) →
     anyDayCompletelyFull status (sundayStartDays d0) = false →
     (groupOf dates w).length < 3 →
     ((∃ w', isViolatingWeek status cm1 dates w' = true ∧
        handleSubmit st uid status cm1 dates =
          (SubmitOutcome.weeklyError (weekStartOf dates w'), st)) ∧
      ((∀ w'', isViolatingWeek status cm1 dates w'' = true → w'' = w) →
        handleSubmit st uid status cm1 dates =
          (SubmitOutcome.weeklyError (daysToCivil (sundayStartDays d0)), st)))) ∧
    (anyDayCompletelyFull status (sundayStartDays d0) = true →
      isViolatingWeek status cm1 dates w = false) ∧
    (3 ≤ (groupOf dates w).length →
      isViolatingWeek status cm1 dates w = false) := by
  have hmem : d0 ∈ groupOf dates w := by
    cases hl : groupOf dates w with
    | nil => rw [hl] at hd0; simp at hd0
    | cons x xs =>
      rw [hl] at hd0
      simp only [List.head?_cons, Option.some.injEq] at hd0
      rw [← hd0]
      exact List.mem_cons_self x xs
  have hddates : d0 ∈ dates ∧ getWeek d0 = w := by
    unfold groupOf at hmem
    rw [List.mem_filter] at hmem
    exact ⟨hmem.1, by simpa using hmem.2⟩
  refine ⟨?_, ?_, ?_⟩
  · intro hmonth hfull hlen
    have hviol : isViolatingWeek status cm1 dates w = true := by
      unfold isViolatingWeek
      rw [hd0]
      simp only [if_pos hmonth, hfull, Bool.not_false, Bool.true_and,
        decide_eq_true_eq]
      exact hlen
    have hwkeys : w ∈ sortAsc ((dates.map getWeek).dedup) := by
      rw [mem_sortAsc, List.mem_dedup, List.mem_map]
      exact ⟨d0, hddates.1, hddates.2⟩
    have hne : ¬ dates.isEmpty = true := by
      cases dates with
      | nil => exact absurd hddates.1 (List.not_mem_nil d0)
      | cons x xs => simp
    cases hf : (sortAsc ((dates.map getWeek).dedup)).find?
        (isViolatingWeek status cm1 dates) with
    | none =>
      exact absurd hviol (by simpa using List.find?_eq_none.mp hf w hwkeys)
    | some w' =>
      have hpw' : isViolatingWeek status cm1 dates w' = true := List.find?_some hf
      have hval : validateWeekly status cm1 dates = some (weekStartOf dates w') := by
        unfold validateWeekly
        rw [hf]
        rfl
      have hhs : handleSubmit st uid status cm1 dates =
          (SubmitOutcome.weeklyError (weekStartOf dates w'), st) := by
        unfold handleSubmit
        rw [if_neg hne, hval]
      refine ⟨⟨w', hpw', hhs⟩, ?_⟩
      intro huniq
      have hww : w' = w := huniq w' hpw'
      rw [hww] at hhs
      have hws : weekStartOf dates w = daysToCivil (sundayStartDays d0) := by
        unfold weekStartOf
        rw [hd0]
      rw [hws] at hhs
      exact hhs
  · intro hfull
    unfold isViolatingWeek
    rw [hd0]
    dsimp only
    split
    · simp [hfull]
    · rfl
  · intro hlen
    unfold isViolatingWeek
    rw [hd0]
    dsimp only
    split
    · have hd : decide ((groupOf dates w).length < 3) = false := by
        apply decide_eq_false
        omega
      simp [hd]
    · rfl

/-- Witness for C2: selecting only Tuesday 2025-06-03 in June 2025
(whose Sunday-anchored week 2025-06-01..07 lies wholly in June), with an
all-absent status record, fails the submission naming 2025-06-01 and
leaves the state unchanged. -/
theorem C2_witness :
    ((groupOf [⟨2025, 6, 3⟩] (getWeek ⟨2025, 6, 3⟩)).head? = some ⟨2025, 6, 3⟩ ∧
     ((daysToCivil (sundayStartDays ⟨2025, 6, 3⟩)).m = 6 ∧
      (daysToCivil (sundayStartDays ⟨2025, 6, 3⟩ + 6)).m = 6) ∧
     anyDayCompletelyFull (fun _ => none) (sundayStartDays ⟨2025, 6, 3⟩) = false ∧
     (groupOf [⟨2025, 6, 3⟩] (getWeek ⟨2025, 6, 3⟩)).length < 3) ∧
    handleSubmit
      { locations := [⟨1, "Bengaluru", 450⟩], users := [], bookings := [],
        waitlist := [], nextBookingId := 1, nextWaitlistId := 1, nextUserId := 1 }
      1 (fun _ => none) 6 [⟨2025, 6, 3⟩] =
      (SubmitOutcome.weeklyError ⟨2025, 6, 1⟩,
       { locations := [⟨1, "Bengaluru", 450⟩], users := [], bookings := [],
         waitlist := [], nextBookingId := 1, nextWaitlistId := 1, nextUserId := 1 }) := by
  refine ⟨⟨by decide, by decide, by decide, by decide⟩, ?_⟩
  have h := ((C2_weekly_minimum
    { locations := [⟨1, "Bengaluru", 450⟩], users := [], bookings := [],
      waitlist := [], nextBookingId := 1, nextWaitlistId := 1, nextUserId := 1 }
    1 (fun _ => none) 6 [⟨2025, 6, 3⟩] (getWeek ⟨2025, 6, 3⟩) ⟨2025, 6, 3⟩
    (by decide)).1 (by decide) (by decide) (by decide)).2 ?_
  · rw [show daysToCivil (sundayStartDays ⟨2025, 6, 3⟩) = (⟨2025, 6, 1⟩ : Ymd) from by decide]
      at h
    exact h
  · intro w'' hv
    obtain ⟨d, hd, hw⟩ := isViolatingWeek_mem _ _ _ _ hv
    have hdd : d = ⟨2025, 6, 3⟩ := by
      simpa using hd
    rw [← hw, hdd]

/-- Row-processing without a crash: when every remaining row supplies a
`locationName` value, the loop terminates normally, each row either adds
exactly one user or contributes exactly one skip message, and the users
table grows by exactly the number of added rows. -/
lemma importLoop_no_crash (headers : List String) :
    ∀ (rows : List String) (st : ApiState) (i : Nat) (emails : List (Option String))
      (errs : List SkipMsg) (added : Nat),
      (∀ line ∈ rows,
        (rowValue headers ((jsSplit ',' line).map jsTrim) "locationName").isSome = true) →
      ∃ added' errs' st',
        importLoop headers rows i st emails errs added =
          ImportLoopResult.ok added' errs' st' ∧
        added' + errs'.length = added + errs.length + rows.length ∧
        st'.users.length + added = st.users.length + added' := by
  intro rows
  induction rows with
  | nil =>
    intro st i emails errs added _
    exact ⟨added, errs, st, rfl, by simp, by omega⟩
  | cons line rest ih =>
    intro st i emails errs added hwf
    have hwfline := hwf line (List.mem_cons_self _ _)
    have hwfrest : ∀ l ∈ rest, (rowValue headers ((jsSplit ',' l).map jsTrim)
        "locationName").isSome = true := fun l hl => hwf l (List.mem_cons_of_mem _ hl)
    rw [importLoop]
    by_cases hdup : emails.contains (rowValue headers ((jsSplit ',' line).map jsTrim) "email")
    · rw [if_pos hdup]
      obtain ⟨a', e', s', heq, hc, hu⟩ := ih st (i + 1) emails
        (errs ++ [SkipMsg.dupEmail (i + 1)
          (rowValue headers ((jsSplit ',' line).map jsTrim) "email")]) added hwfrest
      refine ⟨a', e', s', heq, ?_, hu⟩
      simp only [List.length_append, List.length_cons, List.length_nil] at hc ⊢
      omega
    · rw [if_neg hdup]
      cases hlv : rowValue headers ((jsSplit ',' line).map jsTrim) "locationName" with
      | none => rw [hlv] at hwfline; simp at hwfline
      | some locName =>
        simp only [hlv]
        cases hfind : st.locations.find? (fun l => decide (jsToLower l.name = jsToLower locName)) with
        | none =>
          simp only [hfind]
          obtain ⟨a', e', s', heq, hc, hu⟩ := ih st (i + 1) emails
            (errs ++ [SkipMsg.unknownLocation (i + 1) locName]) added hwfrest
          refine ⟨a', e', s', heq, ?_, hu⟩
          simp only [List.length_append, List.length_cons, List.length_nil] at hc ⊢
          omega
        | some loc =>
          simp only [hfind]
          obtain ⟨a', e', s', heq, hc, hu⟩ := ih
            { st with
              users := st.users ++
                [{ id := st.nextUserId
                   employeeId := rowValue headers ((jsSplit ',' line).map jsTrim) "employeeId"
                   name := rowValue headers ((jsSplit ',' line).map jsTrim) "name"
                   email := rowValue headers ((jsSplit ',' line).map jsTrim) "email"
                   role := Role.associate
                   locationId := loc.id
                   teamId :=
                     match rowValue headers ((jsSplit ',' line).map jsTrim) "teamId" with
                     | none => none
                     | some s => if s = "" then none else jsParseInt s }]
              nextUserId := st.nextUserId + 1 }
            (i + 1)
            (emails ++ [rowValue headers ((jsSplit ',' line).map jsTrim) "email"])
            errs (added + 1) hwfrest
          refine ⟨a', e', s', heq, by simp only [List.length_cons] at hc ⊢; omega, ?_⟩
          have hus : ({ st with
              users := st.users ++
                [{ id := st.nextUserId
                   employeeId := rowValue headers ((jsSplit ',' line).map jsTrim) "employeeId"
                   name := rowValue headers ((jsSplit ',' line).map jsTrim) "name"
                   email := rowValue headers ((jsSplit ',' line).map jsTrim) "email"
                   role := Role.associate
                   locationId := loc.id
                   teamId :=
                     match rowValue headers ((jsSplit ',' line).map jsTrim) "teamId" with
                     | none => none
                     | some s => if s = "" then none else jsParseInt s }]
              nextUserId := st.nextUserId + 1 } : ApiState).users.length =
              st.users.length + 1 := by
            simp
          rw [hus] at hu
          omega

/-- The behaviour claim C9 asserts of the import at an input: the call
resolves a row-level report whose added count plus skip-message count
covers every data row. -/
def ImportReportTotalAt (st : ApiState) (csvText : String) : Prop :=
  ∃ added errs surfaced truncated success st',
    importUsersFromCSV st csvText =
      (ImportOutcome.report added errs surfaced truncated success, st') ∧
    added + errs.length =
      (((jsSplit '\n' csvText).filter (fun l => !(jsTrim l == ""))).length - 1)

/-- Counterexample to claim C9: a payload whose headers are all present
but whose single data row omits the `locationName` value makes
`entry.locationName.toLowerCase()` throw a `TypeError`, so the promise
is rejected: the row is neither skipped with a message nor adds a user,
and no report is produced. -/
theorem C9_counterexample :
    importUsersFromCSV
        { locations := [⟨1, "Pune", 350⟩],
          users := [⟨1, some "E0", some "Bob", some "bob@x.com", Role.associate, 1, none⟩],
          bookings := [], waitlist := [],
          nextBookingId := 1, nextWaitlistId := 1, nextUserId := 2 }
        "employeeId,name,email,locationName\nE1,Alice,alice@x.com" =
      (ImportOutcome.crashed,
       { locations := [⟨1, "Pune", 350⟩],
         users := [⟨1, some "E0", some "Bob", some "bob@x.com", Role.associate, 1, none⟩],
         bookings := [], waitlist := [],
         nextBookingId := 1, nextWaitlistId := 1, nextUserId := 2 }) ∧
    ¬ ImportReportTotalAt
        { locations := [⟨1, "Pune", 350⟩],
          users := [⟨1, some "E0", some "Bob", some "bob@x.com", Role.associate, 1, none⟩],
          bookings := [], waitlist := [],
          nextBookingId := 1, nextWaitlistId := 1, nextUserId := 2 }
        "employeeId,name,email,locationName\nE1,Alice,alice@x.com" := by
  have hres : importUsersFromCSV
      { locations := [⟨1, "Pune", 350⟩],
        users := [⟨1, some "E0", some "Bob", some "bob@x.com", Role.associate, 1, none⟩],
        bookings := [], waitlist := [],
        nextBookingId := 1, nextWaitlistId := 1, nextUserId := 2 }
      "employeeId,name,email,locationName\nE1,Alice,alice@x.com" =
      (ImportOutcome.crashed,
       { locations := [⟨1, "Pune", 350⟩],
         users := [⟨1, some "E0", some "Bob", some "bob@x.com", Role.associate, 1, none⟩],
         bookings := [], waitlist := [],
         nextBookingId := 1, nextWaitlistId := 1, nextUserId := 2 }) := by decide
  refine ⟨hres, ?_⟩
  rintro ⟨a, e, s, t, su, st', heq, -⟩
  rw [hres] at heq
  simp [Prod.ext_iff] at heq

/-- Claim C9 as amended (restricted to payloads whose data rows supply a
`locationName` value; a row without one aborts the import with a
`TypeError`, keeping the users added by earlier rows): a missing
required header fails the import before any row is processed; otherwise
every data row is either skipped with exactly one message (duplicate
email or unknown location) or adds exactly one user, the users table
grows by exactly the added count, at most 5 messages are surfaced, and
the truncation notice appears exactly when more than 5 exist; and the
concrete 1-valid-row-1-duplicate-email payload adds one user and
reports exactly one skip message naming that email. -/
theorem C9_import_amended (st : ApiState) (csvText : String)
    (first : String) (rest : List String)
    (hlines : (jsSplit '\n' csvText).filter (fun l => !(jsTrim l == "")) = first :: rest) :
    (∀ h : String,
      (["employeeId", "name", "email", "locationName"]).find?
        (fun x => !(((jsSplit ',' first).map jsTrim).contains x)) = some h →
      importUsersFromCSV st csvText = (ImportOutcome.missingHeader h, st)) ∧
    ((["employeeId", "name", "email", "locationName"]).find?
        (fun x => !(((jsSplit ',' first).map jsTrim).contains x)) = none →
     (∀ line ∈ rest,
       (rowValue ((jsSplit ',' first).map jsTrim)
         ((jsSplit ',' line).map jsTrim) "locationName").isSome = true) →
     ∃ added errs st',
       importUsersFromCSV st csvText =
         (ImportOutcome.report added errs (errs.take 5)
           (decide (5 < errs.length)) (decide (0 < added)), st') ∧
       added + errs.length = rest.length ∧
       st'.users.length = st.users.length + added ∧
       (errs.take 5).length ≤ 5) ∧
    importUsersFromCSV
      { locations := [⟨1, "Pune", 350⟩],
        users := [⟨1, some "E0", some "Bob", some "bob@x.com", Role.associate, 1, none⟩],
        bookings := [], waitlist := [],
        nextBookingId := 1, nextWaitlistId := 1, nextUserId := 2 }
      "employeeId,name,email,locationName\nE7,Carol,carol@x.com,Pune\nE8,Dave,bob@x.com,Pune" =
      (ImportOutcome.report 1 [SkipMsg.dupEmail 3 (some "bob@x.com")]
        [SkipMsg.dupEmail 3 (some "bob@x.com")] false true,
       { locations := [⟨1, "Pune", 350⟩],
         users := [⟨1, some "E0", some "Bob", some "bob@x.com", Role.associate, 1, none⟩,
                   ⟨2, some "E7", some "Carol", some "carol@x.com", Role.associate, 1, none⟩],
         bookings := [], waitlist := [],
         nextBookingId := 1, nextWaitlistId := 1, nextUserId := 3 }) := by
  refine ⟨?_, ?_, by decide⟩
  · intro h hfind
    unfold importUsersFromCSV
    rw [hlines]
    dsimp only
    rw [hfind]
  · intro hnomiss hwf
    obtain ⟨added, errs, st', hloop, hcount, husers⟩ :=
      importLoop_no_crash ((jsSplit ',' first).map jsTrim) rest st 1
        (st.users.map User.email) [] 0 hwf
    refine ⟨added, errs, st', ?_, by simpa using hcount, by omega, by simp⟩
    unfold importUsersFromCSV
    rw [hlines]
    dsimp only
    rw [hnomiss]
    dsimp only
    rw [hloop]

/-- Witness for C9's amended theorem: the missing-header branch at a
concrete header-less payload, and the report branch at the concrete
1-valid-1-duplicate payload. -/
theorem C9_witness :
    ((jsSplit '\n' "name,email,locationName").filter (fun l => !(jsTrim l == "")) =
      "name,email,locationName" :: [] ∧
     importUsersFromCSV
       { locations := [⟨1, "Pune", 350⟩], users := [], bookings := [], waitlist := [],
         nextBookingId := 1, nextWaitlistId := 1, nextUserId := 1 }
       "name,email,locationName" =
       (ImportOutcome.missingHeader "employeeId",
        { locations := [⟨1, "Pune", 350⟩], users := [], bookings := [], waitlist := [],
          nextBookingId := 1, nextWaitlistId := 1, nextUserId := 1 })) ∧
    ∃ added errs st',
      importUsersFromCSV
        { locations := [⟨1, "Pune", 350⟩],
          users := [⟨1, some "E0", some "Bob", some "bob@x.com", Role.associate, 1, none⟩],
          bookings := [], waitlist := [],
          nextBookingId := 1, nextWaitlistId := 1, nextUserId := 2 }
        "employeeId,name,email,locationName\nE7,Carol,carol@x.com,Pune\nE8,Dave,bob@x.com,Pune" =
        (ImportOutcome.report added errs (errs.take 5)
          (decide (5 < errs.length)) (decide (0 < added)), st') ∧
      added + errs.length = 2 ∧
      st'.users.length = 1 + added := by
  constructor
  · refine ⟨by decide, ?_⟩
    exact (C9_import_amended
      { locations := [⟨1, "Pune", 350⟩], users := [], bookings := [], waitlist := [],
        nextBookingId := 1, nextWaitlistId := 1, nextUserId := 1 }
      "name,email,locationName" "name,email,locationName" [] (by decide)).1
      "employeeId" (by decide)
  · obtain ⟨added, errs, st', heq, hc, hu, -⟩ := (C9_import_amended
      { locations := [⟨1, "Pune", 350⟩],
        users := [⟨1, some "E0", some "Bob", some "bob@x.com", Role.associate, 1, none⟩],
        bookings := [], waitlist := [],
        nextBookingId := 1, nextWaitlistId := 1, nextUserId := 2 }
      "employeeId,name,email,locationName\nE7,Carol,carol@x.com,Pune\nE8,Dave,bob@x.com,Pune"
      "employeeId,name,email,locationName"
      ["E7,Carol,carol@x.com,Pune", "E8,Dave,bob@x.com,Pune"] (by decide)).2.1
      (by decide) (by decide)
    exact ⟨added, errs, st', heq, hc, hu⟩

end RTO
